import Mathlib

/-!
# Call signaling core of the chat server

A shallow embedding of the socket handlers of `src/backend/server.js`
(the in-memory call room registry, the invite fan-out, the negotiation relay
and the disconnect sweep), of the mesh bootstrap of
`src/frontend/src/components/VideoCall/VideoCallRoom.js`, and of the
middleware `validateInput` of `src/backend/middleware/securityMiddleware.js`.

Conventions of the embedding.

* A JavaScript value is a `JsVal`.  Arrays and objects carry the address of
  the heap cell that holds them: JavaScript compares them by identity, never
  by content, and the address is what `===` and the `Map` key comparison
  (SameValueZero) look at.  Numbers are integers (no NaN, one zero), so on the
  values of the model `===` and SameValueZero agree.
* A JavaScript `Map` is the list of its entries in insertion order (`JsMap`).
* The socket.io server is the list of its connected sockets, each with the
  set of broadcast rooms it has joined; a socket joins the room named by its
  own id when it connects.  The library is not part of the repository; it is
  modelled by its documented contract: `socket.emit` addresses the socket
  itself; `socket.to(r).emit` and `socket.in(r).emit` address every socket
  that has joined `r`, the sender excepted.  A room name is one value.  Given
  an array, the library takes each item as a room name; the broadcast rooms
  of the model do not follow this, and `joinsOneRoom` marks the joins for
  which they are right.
* A handler returns an `Outcome`: the state it leaves, the emissions it
  made, and whether it returned or let an exception escape.
* The handlers run one at a time, each to its end.
-/

namespace CallSignaling

/-! ## JavaScript values -/

/-- JavaScript values as they reach a socket handler. -/
inductive JsVal where
  | undefined
  | null
  | bool (b : Bool)
  | num (n : Int)
  | str (s : String)
  | arr (addr : Nat) (items : List JsVal)
  | obj (addr : Nat) (fields : List (String × JsVal))

namespace JsVal

/-- The Map key comparison (SameValueZero): primitives by value, arrays and
objects by identity. -/
def sameValueZero : JsVal → JsVal → Bool
  | undefined, undefined => true
  | null, null => true
  | bool a, bool b => a == b
  | num a, num b => a == b
  | str a, str b => a == b
  | arr a _, arr b _ => a == b
  | obj a _, obj b _ => a == b
  | _, _ => false

/-- Strict equality `===`; on the values of the model it is SameValueZero. -/
def strictEq (a b : JsVal) : Bool := sameValueZero a b

/-- Whether a value is `undefined` or `null`: destructuring it, or reading a
property of it, throws a TypeError. -/
def isNullish : JsVal → Bool
  | undefined => true
  | null => true
  | _ => false

/-- Test `Array.isArray(v)`. -/
def isArray : JsVal → Bool
  | arr _ _ => true
  | _ => false

/-- Property read `v.name` on a value that is not nullish, for the property
names the handlers use (none of them exists on a primitive or on an array):
the field of an object, `undefined` otherwise.  An object lists each of its
properties once. -/
def getProp (v : JsVal) (name : String) : JsVal :=
  match v with
  | obj _ fields => (fields.lookup name).getD undefined
  | _ => undefined

/-- Property read `v.name` with its failure: `none` is the TypeError of
reading a property of `undefined` or `null`. -/
def member? (v : JsVal) (name : String) : Option JsVal :=
  if v.isNullish then none else some (v.getProp name)

mutual

/-- Whether the conversion of a value to a string, as in `"text" + v`, throws
a TypeError.  An object is converted by its method `toString`; an object of
a message that has a property `toString` of its own has a value there that
is no function, and `valueOf` gives back the object, so that no conversion is
left.  An array converts its items one by one. -/
def toStringThrows : JsVal → Bool
  | obj _ fields => fields.any (fun f => f.1 == "toString")
  | arr _ items => anyToStringThrows items
  | _ => false

/-- Whether the conversion of one of the items throws. -/
def anyToStringThrows : List JsVal → Bool
  | [] => false
  | v :: rest => toStringThrows v || anyToStringThrows rest

end

end JsVal

/-! ## JavaScript maps -/

/-- A `Map` keyed by JavaScript values: its entries in insertion order. -/
abbrev JsMap (β : Type) := List (JsVal × β)

namespace JsMap

variable {β : Type}

/-- Lookup `m.get(k)`; `none` is `undefined`. -/
def get? : JsMap β → JsVal → Option β
  | [], _ => none
  | (k', v) :: rest, k => if JsVal.sameValueZero k' k then some v else get? rest k

/-- Test `m.has(k)`. -/
def has (m : JsMap β) (k : JsVal) : Bool := (get? m k).isSome

/-- Update `m.set(k, v)`: an existing key keeps its place, a new key goes last. -/
def set : JsMap β → JsVal → β → JsMap β
  | [], k, v => [(k, v)]
  | (k', v') :: rest, k, v =>
    if JsVal.sameValueZero k' k then (k', v) :: rest else (k', v') :: set rest k v

/-- Removal `m.delete(k)`. -/
def delete (m : JsMap β) (k : JsVal) : JsMap β :=
  m.filter (fun e => !JsVal.sameValueZero e.1 k)

/-- Keys `m.keys()`, in insertion order. -/
def keys (m : JsMap β) : List JsVal := m.map Prod.fst

/-- Size `m.size`. -/
def size (m : JsMap β) : Nat := m.length

/-- Representation invariant of a `Map`: no two entries have the same key. -/
def WF (m : JsMap β) : Prop :=
  m.Pairwise (fun a b => JsVal.sameValueZero a.1 b.1 = false)

end JsMap

/-! ## Server state -/

/-- The id socket.io gives a connection (`socket.id`). -/
abbrev SockId := String

/-- A room of the registry: `Map<userId, socketId>`. -/
abbrev CallRoom := JsMap SockId

/-- The registry `global.__CALL_ROOMS__`: `roomId -> Map<userId, socketId>`. -/
abbrev Registry := JsMap CallRoom

/-- A connected socket: its id and the broadcast rooms it has joined
(`socket.rooms`). -/
structure Conn where
  id : SockId
  rooms : List JsVal

/-- The state the handlers act on: the call room registry and the connected
sockets of the socket.io server. -/
structure Server where
  callRooms : Registry
  sockets : List Conn

/-- Whom an emission addresses. -/
inductive Target where
  /-- Emission `socket.emit(...)`: the socket itself. -/
  | self
  /-- Emission `socket.to(name).emit(...)` or `socket.in(name).emit(...)`:
  the sockets that joined `name`, the sender excepted. -/
  | room (name : JsVal)

/-- One call of `emit`: target, event name and the fields of the payload
object. -/
structure Emit where
  target : Target
  event : String
  payload : List (String × JsVal)

/-- What running a handler does: the state it leaves and the emissions it
made, and whether it returned or an exception escaped it. -/
inductive Outcome where
  | returned (st : Server) (out : List Emit)
  | threw (st : Server) (out : List Emit)

namespace Outcome

/-- State left by the handler. -/
def state : Outcome → Server
  | returned st _ => st
  | threw st _ => st

/-- Emissions made by the handler, in order. -/
def emits : Outcome → List Emit
  | returned _ out => out
  | threw _ out => out

/-- Whether the handler returned normally. -/
def isReturned : Outcome → Bool
  | returned _ _ => true
  | threw _ _ => false

end Outcome

/-! ## socket.io primitives -/

/-- Add a room to a set of rooms (`Set.add`). -/
def addRoom (rooms : List JsVal) (r : JsVal) : List JsVal :=
  if rooms.any (fun x => JsVal.sameValueZero x r) then rooms else rooms ++ [r]

/-- Call `socket.join(r)` on the socket `sock`, for a room name `r` that is
one value; of an array socket.io joins each item. -/
def socketJoin (sockets : List Conn) (sock : SockId) (r : JsVal) : List Conn :=
  sockets.map (fun c => if c.id = sock then { c with rooms := addRoom c.rooms r } else c)

/-- Call `socket.leave(r)` on the socket `sock`. -/
def socketLeave (sockets : List Conn) (sock : SockId) (r : JsVal) : List Conn :=
  sockets.map (fun c =>
    if c.id = sock then
      { c with rooms := c.rooms.filter (fun x => !JsVal.sameValueZero x r) }
    else c)

/-- A new connection: the socket joins the room named by its own id. -/
def socketOpen (sockets : List Conn) (sock : SockId) : List Conn :=
  sockets ++ [{ id := sock, rooms := [JsVal.str sock] }]

/-- A closed connection leaves every room and the server (done by socket.io
before the `disconnect` listeners run). -/
def socketClose (sockets : List Conn) (sock : SockId) : List Conn :=
  sockets.filter (fun c => c.id != sock)

/-- A delivered event: receiving socket, event name, payload fields. -/
structure Delivery where
  dest : SockId
  event : String
  payload : List (String × JsVal)

/-- The sockets an emission of `sender` reaches: the sender for
`socket.emit`; for `socket.to(name)` and `socket.in(name)` the other sockets
that have joined the room `name`, a room name being one value (an array
addresses each of its items). -/
def deliver (sockets : List Conn) (sender : SockId) (e : Emit) : List Delivery :=
  match e.target with
  | Target.self => [{ dest := sender, event := e.event, payload := e.payload }]
  | Target.room name =>
    (sockets.filter (fun c =>
        c.id != sender && c.rooms.any (fun x => JsVal.sameValueZero x name))).map
      (fun c => { dest := c.id, event := e.event, payload := e.payload })

/-! ## Invite handlers -/

/-- The loop `recipients.forEach(body)`: runs `body` on each item in order and
stops at the first exception (`none`).  Returns the emissions made and
whether the loop ran to its end. -/
def forEachEmit (body : JsVal → Option (List Emit)) : List JsVal → List Emit × Bool
  | [] => ([], true)
  | uid :: rest =>
    match body uid with
    | none => ([], false)
    | some es =>
      let r := forEachEmit body rest
      (es ++ r.1, r.2)

/-- Body of the loop of `call:initiate` for one recipient `uid`. -/
def initiateBody (roomId fromUser isGroup uid : JsVal) : Option (List Emit) :=
  match fromUser.member? "_id" with
  | none => none
  | some fromId =>
    if JsVal.strictEq uid fromId then some []
    else some [{ target := Target.room uid, event := "call:incoming",
                 payload := [("roomId", roomId), ("fromUser", fromUser), ("isGroup", isGroup)] }]

/-- Handler of `call:initiate` (server.js 137-152).  The parameter is
destructured before the `try` block is entered; the body runs inside it. -/
def onCallInitiate (st : Server) (_sock : SockId) (payload : JsVal) : Outcome :=
  if payload.isNullish then Outcome.threw st []
  else
    let roomId := payload.getProp "roomId"
    let fromUser := payload.getProp "fromUser"
    let recipients := payload.getProp "recipients"
    let isGroup := payload.getProp "isGroup"
    match recipients with
    | JsVal.arr _ items =>
      -- an exception of the loop is caught and logged
      Outcome.returned st (forEachEmit (initiateBody roomId fromUser isGroup) items).1
    | _ => Outcome.returned st []

/-- Handler of `call:accept` (server.js 155-157). -/
def onCallAccept (st : Server) (_sock : SockId) (payload : JsVal) : Outcome :=
  if payload.isNullish then Outcome.threw st []
  else
    let roomId := payload.getProp "roomId"
    let fromUserId := payload.getProp "fromUserId"
    let userId := payload.getProp "userId"
    Outcome.returned st
      [{ target := Target.room fromUserId, event := "call:accepted",
         payload := [("roomId", roomId), ("userId", userId)] }]

/-- Handler of `call:reject` (server.js 160-162). -/
def onCallReject (st : Server) (_sock : SockId) (payload : JsVal) : Outcome :=
  if payload.isNullish then Outcome.threw st []
  else
    let roomId := payload.getProp "roomId"
    let fromUserId := payload.getProp "fromUserId"
    let userId := payload.getProp "userId"
    Outcome.returned st
      [{ target := Target.room fromUserId, event := "call:rejected",
         payload := [("roomId", roomId), ("userId", userId)] }]

/-- Body of the loop of `call:cancel` for one recipient `uid`. -/
def cancelBody (roomId fromUserId uid : JsVal) : Option (List Emit) :=
  if JsVal.strictEq uid fromUserId then some []
  else some [{ target := Target.room uid, event := "call:canceled",
               payload := [("roomId", roomId), ("fromUserId", fromUserId)] }]

/-- Handler of `call:cancel` (server.js 165-176). -/
def onCallCancel (st : Server) (_sock : SockId) (payload : JsVal) : Outcome :=
  if payload.isNullish then Outcome.threw st []
  else
    let roomId := payload.getProp "roomId"
    let recipients := payload.getProp "recipients"
    let fromUserId := payload.getProp "fromUserId"
    match recipients with
    | JsVal.arr _ items =>
      Outcome.returned st (forEachEmit (cancelBody roomId fromUserId) items).1
    | _ => Outcome.returned st []

/-! ## Room registry handlers -/

/-- Handler of `call:join` (server.js 179-196).  The array of the roster is
built by the handler and sent at once; its address is immaterial. -/
def onCallJoin (st : Server) (sock : SockId) (payload : JsVal) : Outcome :=
  if payload.isNullish then Outcome.threw st []
  else
    let roomId := payload.getProp "roomId"
    let userId := payload.getProp "userId"
    let name := payload.getProp "name"
    let rooms := st.callRooms
    let rooms := if !rooms.has roomId then rooms.set roomId [] else rooms
    let room := (rooms.get? roomId).getD []
    -- room.set(userId, socket.id) changes the map held by the registry
    let room := room.set userId sock
    let rooms := rooms.set roomId room
    let sockets := socketJoin st.sockets sock roomId
    let existing := room.keys.filter (fun id => !JsVal.strictEq id userId)
    Outcome.returned { callRooms := rooms, sockets := sockets }
      [{ target := Target.room roomId, event := "call:user-joined",
         payload := [("userId", userId), ("name", name)] },
       { target := Target.self, event := "call:users-in-room",
         payload := [("users", JsVal.arr 0 existing)] }]

/-- The three relay handlers `call:offer`, `call:answer`, `call:ice`
(server.js 198-226) are the same code up to the event name and the name of
the body field.  The test `if (targetSocketId)` fails on `undefined` and on
the empty string. -/
def relay (event field : String) (st : Server) (_sock : SockId) (payload : JsVal) : Outcome :=
  if payload.isNullish then Outcome.threw st []
  else
    let roomId := payload.getProp "roomId"
    let fromUserId := payload.getProp "fromUserId"
    let toUserId := payload.getProp "toUserId"
    let body := payload.getProp field
    match st.callRooms.get? roomId with
    | none => Outcome.returned st []
    | some room =>
      match room.get? toUserId with
      | none => Outcome.returned st []
      | some targetSocketId =>
        if targetSocketId ≠ "" then
          Outcome.returned st
            [{ target := Target.room (JsVal.str targetSocketId), event := event,
               payload := [("fromUserId", fromUserId), (field, body)] }]
        else Outcome.returned st []

/-- Handler of `call:offer` (server.js 198-206). -/
def onCallOffer : Server → SockId → JsVal → Outcome := relay "call:offer" "offer"

/-- Handler of `call:answer` (server.js 208-216). -/
def onCallAnswer : Server → SockId → JsVal → Outcome := relay "call:answer" "answer"

/-- Handler of `call:ice` (server.js 218-226). -/
def onCallIce : Server → SockId → JsVal → Outcome := relay "call:ice" "candidate"

/-- Handler of `call:leave` (server.js 228-237). -/
def onCallLeave (st : Server) (sock : SockId) (payload : JsVal) : Outcome :=
  if payload.isNullish then Outcome.threw st []
  else
    let roomId := payload.getProp "roomId"
    let userId := payload.getProp "userId"
    let rooms := st.callRooms
    match rooms.get? roomId with
    | none => Outcome.returned st []
    | some room =>
      let room := room.delete userId
      let rooms := rooms.set roomId room
      let sockets := socketLeave st.sockets sock roomId
      let rooms := if room.size = 0 then rooms.delete roomId else rooms
      Outcome.returned { callRooms := rooms, sockets := sockets }
        [{ target := Target.room roomId, event := "call:user-left",
           payload := [("userId", userId)] }]

/-- Inner loop of the disconnect handler over the entries of one room:
removes the entries bound to `sock` and emits `call:user-left` for each. -/
def sweepRoom (sock : SockId) (roomId : JsVal) : CallRoom → CallRoom × List Emit
  | [] => ([], [])
  | (userId, sockId) :: rest =>
    let r := sweepRoom sock roomId rest
    if sockId = sock then
      (r.1, { target := Target.room roomId, event := "call:user-left",
              payload := [("userId", userId)] } :: r.2)
    else ((userId, sockId) :: r.1, r.2)

/-- Outer loop of the disconnect handler over the rooms of the registry: each
room is swept and deleted when it is left empty. -/
def sweepRooms (sock : SockId) : Registry → Registry × List Emit
  | [] => ([], [])
  | (roomId, room) :: rest =>
    let swept := sweepRoom sock roomId room
    let r := sweepRooms sock rest
    if swept.1.size = 0 then (r.1, swept.2 ++ r.2)
    else ((roomId, swept.1) :: r.1, swept.2 ++ r.2)

/-- Handler of `disconnect` (server.js 245-256). -/
def onDisconnect (st : Server) (sock : SockId) : Outcome :=
  let r := sweepRooms sock st.callRooms
  Outcome.returned { callRooms := r.1, sockets := st.sockets } r.2

/-! ## Chat handlers that change the broadcast rooms -/

/-- Handler of `setup` (server.js 111-114). -/
def onSetup (st : Server) (sock : SockId) (userData : JsVal) : Outcome :=
  match userData.member? "_id" with
  | none => Outcome.threw st []
  | some uid =>
    Outcome.returned { st with sockets := socketJoin st.sockets sock uid }
      [{ target := Target.self, event := "connected", payload := [] }]

/-- Handler of `join chat` (server.js 116-119): the socket joins the room,
then the line logged is built by `"User Joined Room: " + room`, which throws
when `room` cannot be converted to a string. -/
def onJoinChat (st : Server) (sock : SockId) (room : JsVal) : Outcome :=
  if room.toStringThrows then
    Outcome.threw { st with sockets := socketJoin st.sockets sock room } []
  else Outcome.returned { st with sockets := socketJoin st.sockets sock room } []

/-! ## Deliveries -/

/-- The connected sockets that have joined the broadcast room `name`. -/
def subscribers (sockets : List Conn) (name : JsVal) : List SockId :=
  (sockets.filter (fun c => c.rooms.any (fun x => JsVal.sameValueZero x name))).map Conn.id

/-- The events a handler run delivers: each emission reaches the sockets it
addresses in the state the handler leaves (every handler changes the
broadcast rooms before it emits). -/
def Outcome.deliveries (o : Outcome) (sender : SockId) : List Delivery :=
  o.emits.flatMap (deliver o.state.sockets sender)

/-! ## Dispatch of the socket events -/

/-- The socket events of the model.  The chat events `typing`, `stop typing`
and `new message` neither read nor write the call room registry or the
broadcast rooms and are left out. -/
inductive Event where
  | setup
  | joinChat
  | callInitiate
  | callAccept
  | callReject
  | callCancel
  | callJoin
  | callOffer
  | callAnswer
  | callIce
  | callLeave
  deriving DecidableEq

/-- The listener `socket.on(name, ...)` registers for each event. -/
def handle (st : Server) (sock : SockId) : Event → JsVal → Outcome
  | Event.setup, arg => onSetup st sock arg
  | Event.joinChat, arg => onJoinChat st sock arg
  | Event.callInitiate, arg => onCallInitiate st sock arg
  | Event.callAccept, arg => onCallAccept st sock arg
  | Event.callReject, arg => onCallReject st sock arg
  | Event.callCancel, arg => onCallCancel st sock arg
  | Event.callJoin, arg => onCallJoin st sock arg
  | Event.callOffer, arg => onCallOffer st sock arg
  | Event.callAnswer, arg => onCallAnswer st sock arg
  | Event.callIce, arg => onCallIce st sock arg
  | Event.callLeave, arg => onCallLeave st sock arg

/-! ## The server as a transition system -/

/-- The server and the ids of all the connections opened so far, closed ones
included. -/
structure World where
  server : Server
  used : List SockId

/-- What can happen to the server: a client connects, a connected client
emits an event, a connection closes. -/
inductive Action where
  | connect (c : SockId)
  | emit (c : SockId) (ev : Event) (payload : JsVal)
  | disconnect (c : SockId)

/-- The ids of the connected sockets. -/
def Server.openIds (st : Server) : List SockId := st.sockets.map Conn.id

/-- The server at start: an empty registry and no connection. -/
def World.init : World := { server := { callRooms := [], sockets := [] }, used := [] }

/-- One action; `none` when the action cannot happen: a connection id is
never given twice, and only a connected socket emits or disconnects.  A
handler that throws leaves the state it had reached. -/
def World.step (w : World) : Action → Option World
  | Action.connect c =>
    if c ∈ w.used then none
    else some { server := { w.server with sockets := socketOpen w.server.sockets c },
                used := c :: w.used }
  | Action.emit c ev payload =>
    if c ∈ w.server.openIds then
      some { w with server := (handle w.server c ev payload).state }
    else none
  | Action.disconnect c =>
    if c ∈ w.server.openIds then
      some { w with server :=
        (onDisconnect { w.server with sockets := socketClose w.server.sockets c } c).state }
    else none

/-- A sequence of actions, in order. -/
def World.run (w : World) : List Action → Option World
  | [] => some w
  | a :: rest => (w.step a).bind (fun w' => w'.run rest)

/-- Whether the action is anything but a `call:leave` by which a socket
leaves a room of the registry while it holds an entry of that room under
another user id than the one the message removes. -/
def leavesOwn (st : Server) : Action → Bool
  | Action.emit c Event.callLeave payload =>
    match st.callRooms.get? (payload.getProp "roomId") with
    | none => true
    | some room =>
      room.all (fun x => x.2 != c || JsVal.sameValueZero x.1 (payload.getProp "userId"))
  | _ => true

/-- Whether the room an action makes its socket join (`setup`, `join chat`,
`call:join`) is named by a value that is not an array.  Given an array,
`socket.join` joins each of its items, which the broadcast rooms of the
model, where a room name is one value, do not follow. -/
def joinsOneRoom : Action → Bool
  | Action.emit _ Event.setup payload => !(payload.getProp "_id").isArray
  | Action.emit _ Event.joinChat payload => !payload.isArray
  | Action.emit _ Event.callJoin payload => !(payload.getProp "roomId").isArray
  | _ => true

/-- The actions of the runs in which the members of a room stay subscribed
to it: `joinsOneRoom` and `leavesOwn`. -/
def keepsMembers (st : Server) (a : Action) : Bool :=
  joinsOneRoom a && leavesOwn st a

/-- A sequence of actions each of which passes the test `ok` in the state it
is taken in; `none` when one does not, or cannot happen. -/
def World.runIf (ok : Server → Action → Bool) (w : World) : List Action → Option World
  | [] => some w
  | a :: rest =>
    if ok w.server a then (w.step a).bind (fun w' => World.runIf ok w' rest) else none

/-- What an action does to the server, as the outcome of the handler it runs:
a connection opens the socket, an emitted event runs its listener, a closed
connection is removed by socket.io and then swept by the `disconnect`
listener. -/
def Server.act (st : Server) : Action → Outcome
  | Action.connect c => Outcome.returned { st with sockets := socketOpen st.sockets c } []
  | Action.emit c ev payload => handle st c ev payload
  | Action.disconnect c => onDisconnect { st with sockets := socketClose st.sockets c } c

/-- The socket an action is about. -/
def Action.socket : Action → SockId
  | Action.connect c => c
  | Action.emit c _ _ => c
  | Action.disconnect c => c

/-- The actions run in order: the state they end in and, for each action, the
events it delivers. -/
def Server.trace (st : Server) : List Action → Server × List (List Delivery)
  | [] => (st, [])
  | a :: rest =>
    let o := st.act a
    let r := Server.trace o.state rest
    (r.1, o.deliveries a.socket :: r.2)

/-! ## The client component `VideoCallRoom` -/

/-- A mounted `VideoCallRoom`: the shared socket, the props `roomId` and
`user`, the state `localStream` of the current render (whether the stream of
`getUserMedia` has been set), and the session descriptions WebRTC produces
for a peer (`pc.createOffer()`, `pc.createAnswer()`), which are opaque
here. -/
structure Client where
  sock : SockId
  roomId : JsVal
  userId : JsVal
  name : JsVal
  localStream : Bool
  createOffer : JsVal → JsVal
  createAnswer : JsVal → JsVal

/-- A message a client emits to the server. -/
structure ClientEmit where
  sock : SockId
  event : Event
  payload : JsVal

/-- Field `name` of a delivered payload object. -/
def field (payload : List (String × JsVal)) (name : String) : JsVal :=
  (payload.lookup name).getD JsVal.undefined

namespace Client

/-- The `call:join` the component emits when it mounts (VideoCallRoom.js 106).
The payload object is serialised at once; its address is immaterial. -/
def joinEmit (cl : Client) : ClientEmit :=
  { sock := cl.sock, event := Event.callJoin,
    payload := JsVal.obj 0 [("roomId", cl.roomId), ("userId", cl.userId), ("name", cl.name)] }

/-- The component as its first render has it: the state `localStream` is the
initial `null` of `useState(null)` (VideoCallRoom.js 14). -/
def firstRender (cl : Client) : Client := { cl with localStream := false }

/-- Function `startOfferTo` (VideoCallRoom.js 80-91) of a render: nothing
when the `localStream` of that render is not set, else one `call:offer` to
`otherUserId`. -/
def startOfferTo (cl : Client) (otherUserId : JsVal) : List ClientEmit :=
  if !cl.localStream then []
  else
    [{ sock := cl.sock, event := Event.callOffer,
       payload := JsVal.obj 0 [("roomId", cl.roomId), ("fromUserId", cl.userId),
                               ("toUserId", otherUserId), ("offer", cl.createOffer otherUserId)] }]

/-- The listeners the mount effect registers (VideoCallRoom.js 108-149), as to
what they emit.  The effect has the dependency list `[]` (line 173): it runs
once, after the first render, and the listeners keep the functions of that
render for as long as the component is mounted.  So the `startOfferTo` that
`call:users-in-room` calls on every listed user and `call:user-joined` on the
new user is the one of the first render, whose `localStream` is the initial
`null`, whatever `setLocalStream` has stored since.  `call:offer` answers its
sender; `call:answer`, `call:ice` and `call:user-left` emit nothing. -/
def handle (cl : Client) (event : String) (payload : List (String × JsVal)) : List ClientEmit :=
  if event = "call:users-in-room" then
    match field payload "users" with
    | JsVal.arr _ users => users.flatMap cl.firstRender.startOfferTo
    | _ => []
  else if event = "call:user-joined" then cl.firstRender.startOfferTo (field payload "userId")
  else if event = "call:offer" then
    [{ sock := cl.sock, event := Event.callAnswer,
       payload := JsVal.obj 0 [("roomId", cl.roomId), ("fromUserId", cl.userId),
                               ("toUserId", field payload "fromUserId"),
                               ("answer", cl.createAnswer (field payload "fromUserId"))] }]
  else []

end Client

/-! ## Server and clients together -/

/-- The server handles the messages in order: the state it ends in and the
events delivered on the way. -/
def serveAll (st : Server) : List ClientEmit → Server × List Delivery
  | [] => (st, [])
  | m :: rest =>
    let o := handle st m.sock m.event m.payload
    let r := serveAll o.state rest
    (r.1, o.deliveries m.sock ++ r.2)

/-- The mounted components handle the delivered events: each event goes to
the listeners of the component on the receiving socket. -/
def reactAll (clients : List Client) (ds : List Delivery) : List ClientEmit :=
  ds.flatMap (fun d =>
    clients.flatMap (fun cl => if cl.sock = d.dest then cl.handle d.event d.payload else []))

/-- A call in progress: the server, the mounted components in join order and
every message the components have sent. -/
structure Mesh where
  server : Server
  mounted : List Client
  sent : List ClientEmit

/-- A server on which no component is mounted yet. -/
def Mesh.start (st : Server) : Mesh := { server := st, mounted := [], sent := [] }

/-- A component mounts and joins; the messages this causes are exchanged in
three rounds: the join, what the components emit on the events it causes,
what they emit on the events this causes, and once more. -/
def Mesh.join (m : Mesh) (cl : Client) : Mesh :=
  let mounted := m.mounted ++ [cl]
  let r1 := serveAll m.server [cl.joinEmit]
  let e1 := reactAll mounted r1.2
  let r2 := serveAll r1.1 e1
  let e2 := reactAll mounted r2.2
  let r3 := serveAll r2.1 e2
  let e3 := reactAll mounted r3.2
  { server := r3.1, mounted := mounted, sent := m.sent ++ [cl.joinEmit] ++ e1 ++ e2 ++ e3 }

/-- The messages still to exchange after the rounds of `Mesh.join`: what the
components emit on the events of the last round. -/
def Mesh.joinPending (m : Mesh) (cl : Client) : List ClientEmit :=
  let mounted := m.mounted ++ [cl]
  let r1 := serveAll m.server [cl.joinEmit]
  let r2 := serveAll r1.1 (reactAll mounted r1.2)
  let r3 := serveAll r2.1 (reactAll mounted r2.2)
  reactAll mounted r3.2

/-- The components of `cs` join one after the other. -/
def Mesh.joinAll (m : Mesh) (cs : List Client) : Mesh := cs.foldl Mesh.join m

/-! ## Input validation middleware (`securityMiddleware.js`)

Strings are matched as JavaScript sees them, by UTF-16 code unit.  A regular
expression is the function that gives the length of its match at the head of
a list of code units; the nine patterns have no anchor and no look-behind, so
a match at an index is a match at the head of the suffix there. -/

/-- The UTF-16 code units of a string. -/
def utf16 (s : String) : List Nat :=
  s.toList.flatMap (fun c =>
    if c.toNat < 65536 then [c.toNat]
    else [55296 + (c.toNat - 65536) / 1024, 56320 + (c.toNat - 65536) % 1024])

/-- Whether the code unit `u` matches the pattern character `p` under the
flag `i`, for the ASCII characters the patterns are written in: `u` is `p`,
or `p` is a lower-case letter and `u` is its upper-case form. -/
def unitMatches (p u : Nat) : Bool :=
  u == p || (97 ≤ p && p ≤ 122 && u + 32 == p)

/-- Whether the literal `lit` matches at the head of `s`, case ignored. -/
def litAt : List Nat → List Nat → Bool
  | [], _ => true
  | _ :: _, [] => false
  | p :: lit, u :: s => unitMatches p u && litAt lit s

/-- Class `\w`: letters, digits and the underscore. -/
def isWord (u : Nat) : Bool :=
  (97 ≤ u && u ≤ 122) || (65 ≤ u && u ≤ 90) || (48 ≤ u && u ≤ 57) || u == 95

/-- Line terminators, which `.` does not match. -/
def isLineTerminator (u : Nat) : Bool :=
  u == 10 || u == 13 || u == 8232 || u == 8233

/-- Class `\s`: white space and line terminators. -/
def isSpace (u : Nat) : Bool :=
  (9 ≤ u && u ≤ 13) || u == 32 || u == 160 || u == 5760 || (8192 ≤ u && u ≤ 8202) ||
    u == 8232 || u == 8233 || u == 8239 || u == 8287 || u == 12288 || u == 65279

/-- A regular expression: the length of its match at the head of a list of
code units, and whether it has the flag `g`. -/
structure Regex where
  matchAt : List Nat → Option Nat
  isGlobal : Bool

/-- A literal pattern such as `/\$where/i`. -/
def literal (lit : String) (g : Bool) : Regex :=
  { matchAt := fun s => if litAt (utf16 lit) s then some (utf16 lit).length else none,
    isGlobal := g }

/-- The part `[^>]*>` at the head of `s`: the units up to the first `>`, that
one included; the length consumed and what follows. -/
def throughGt : List Nat → Option (Nat × List Nat)
  | [] => none
  | u :: s => if u == 62 then some (1, s) else (throughGt s).map (fun r => (r.1 + 1, r.2))

/-- The part `.*?<\/script>` at the head of `s`: the first `</script>` that
no line terminator comes before; the length consumed. -/
def lazyClose : List Nat → Option Nat
  | [] => none
  | u :: s =>
    if litAt (utf16 "</script>") (u :: s) then some 9
    else if isLineTerminator u then none
    else (lazyClose s).map (fun n => n + 1)

/-- The pattern `/<script[^>]*>.*?<\/script>/gi`. -/
def scriptTag : Regex :=
  { matchAt := fun s =>
      if litAt (utf16 "<script") s then
        match throughGt (s.drop 7) with
        | none => none
        | some (n1, rest) =>
          match lazyClose rest with
          | none => none
          | some n2 => some (7 + n1 + n2)
      else none,
    isGlobal := true }

/-- The pattern `/on\w+\s*=/gi`. -/
def onHandler : Regex :=
  { matchAt := fun s =>
      if litAt (utf16 "on") s then
        let w := ((s.drop 2).takeWhile isWord).length
        let sp := ((s.drop (2 + w)).takeWhile isSpace).length
        if w = 0 then none
        else
          match s.drop (2 + w + sp) with
          | u :: _ => if u == 61 then some (2 + w + sp + 1) else none
          | [] => none
      else none,
    isGlobal := true }

/-- The array `suspiciousPatterns` (securityMiddleware.js 65-75). -/
def suspiciousPatterns : List Regex :=
  [literal "$where" false, literal "$ne" false, literal "$gt" false, literal "$lt" false,
   literal "$regex" false, literal "$exists" false, scriptTag, literal "javascript:" true,
   onHandler]

/-- The leftmost match of `m` in `s`, which starts at index `i` of the whole
string: the index where the match ends. -/
def scan (m : List Nat → Option Nat) : List Nat → Nat → Option Nat
  | [], i => (m []).map (fun n => i + n)
  | u :: s, i =>
    match m (u :: s) with
    | some n => some (i + n)
    | none => scan m s (i + 1)

/-- Method `pattern.test(s)` of a pattern whose `lastIndex` is `lastIndex`:
the result and the new `lastIndex`.  A pattern with the flag `g` searches from
`lastIndex` on and leaves it at the end of the match, or at 0 when there is
none; another pattern searches from 0 and keeps `lastIndex`. -/
def Regex.test (r : Regex) (lastIndex : Nat) (s : List Nat) : Bool × Nat :=
  if r.isGlobal then
    if s.length < lastIndex then (false, 0)
    else
      match scan r.matchAt (s.drop lastIndex) lastIndex with
      | some e => (true, e)
      | none => (false, 0)
  else ((scan r.matchAt s 0).isSome, lastIndex)

/-- The loop over the patterns in `checkObject` on a string: stops at the
first pattern that tests true.  Each pattern comes with its `lastIndex`;
returns whether one matched and the patterns with their new `lastIndex`. -/
def testPatterns : List (Regex × Nat) → List Nat → Bool × List (Regex × Nat)
  | [], _ => (false, [])
  | (r, li) :: rest, s =>
    let t := r.test li s
    if t.1 then (true, (r, t.2) :: rest)
    else
      let t2 := testPatterns rest s
      (t2.1, (r, t.2) :: t2.2)

/-- A response sent: the status and the `error` text of the JSON body. -/
structure Response where
  status : Nat
  error : String
  deriving DecidableEq

/-- What `validateInput` has done so far: the patterns with their
`lastIndex`, and the responses sent. -/
structure Validation where
  patterns : List (Regex × Nat)
  sent : List Response

/-- Call `res.status(status).json(...)`: sends the response, or throws when
one has been sent already (the headers cannot be set again); `Except.error`
is the exception, with the state at the throw. -/
def Validation.send (v : Validation) (r : Response) : Except Validation Validation :=
  if v.sent.isEmpty then Except.ok { v with sent := [r] } else Except.error v

/-- Truthiness of a value, as in `if (req.body)`. -/
def JsVal.truthy : JsVal → Bool
  | JsVal.undefined => false
  | JsVal.null => false
  | JsVal.bool b => b
  | JsVal.num n => n != 0
  | JsVal.str s => s != ""
  | JsVal.arr _ _ => true
  | JsVal.obj _ _ => true

mutual

/-- Function `checkObject` (securityMiddleware.js 77-95).  On a string, the
first pattern that matches sends the 400 response and the function returns.
On an array or object, every own property is checked in turn, the value of
the inner call being dropped; the call `obj.hasOwnProperty(key)` throws a
TypeError when the object has a property of that name of its own, whose
value, coming from the request, is no function. -/
def checkObject : JsVal → Validation → Except Validation Validation
  | JsVal.str s, v =>
    let t := testPatterns v.patterns (utf16 s)
    if t.1 then Validation.send { v with patterns := t.2 } { status := 400, error := "Invalid input detected" }
    else Except.ok { v with patterns := t.2 }
  | JsVal.arr _ items, v => checkItems items v
  | JsVal.obj _ fields, v =>
    if !fields.isEmpty && fields.any (fun f => f.1 == "hasOwnProperty") then Except.error v
    else checkFields fields v
  | _, v => Except.ok v

/-- The loop `for (const key in obj)` over the items of an array. -/
def checkItems : List JsVal → Validation → Except Validation Validation
  | [], v => Except.ok v
  | x :: rest, v =>
    match checkObject x v with
    | Except.ok v1 => checkItems rest v1
    | Except.error v1 => Except.error v1

/-- The loop `for (const key in obj)` over the properties of an object, in
the order of enumeration. -/
def checkFields : List (String × JsVal) → Validation → Except Validation Validation
  | [], v => Except.ok v
  | (_, x) :: rest, v =>
    match checkObject x v with
    | Except.ok v1 => checkFields rest v1
    | Except.error v1 => Except.error v1

end

/-- The request as `validateInput` reads it. -/
structure Request where
  body : JsVal
  query : JsVal
  params : JsVal

/-- The check `if (req.part) checkObject(req.part)`. -/
def checkPart (part : JsVal) (v : Validation) : Except Validation Validation :=
  if part.truthy then checkObject part v else Except.ok v

/-- What a run of `validateInput` does: the responses sent, how many times
`next()` was called, and whether an exception escaped. -/
structure Validated where
  sent : List Response
  nextCalls : Nat
  threw : Bool
  deriving DecidableEq

/-- Middleware `validateInput` (securityMiddleware.js 64-109): the three
checks and then `next()` inside `try`; the `catch` block sends the 400
response `Input validation error`, which throws in its turn when a response
has been sent before. -/
def validateInput (req : Request) : Validated :=
  let v0 : Validation := { patterns := suspiciousPatterns.map (fun r => (r, 0)), sent := [] }
  let checked :=
    match checkPart req.body v0 with
    | Except.error v => Except.error v
    | Except.ok v1 =>
      match checkPart req.query v1 with
      | Except.error v => Except.error v
      | Except.ok v2 => checkPart req.params v2
  match checked with
  | Except.ok v => { sent := v.sent, nextCalls := 1, threw := false }
  | Except.error v =>
    match v.send { status := 400, error := "Input validation error" } with
    | Except.ok v' => { sent := v'.sent, nextCalls := 0, threw := false }
    | Except.error v' => { sent := v'.sent, nextCalls := 0, threw := true }

/-! ## Notions used in the statements -/

/-- Representation invariant of the registry: a Map of Maps. -/
def RegistryWF (r : Registry) : Prop :=
  JsMap.WF r ∧ ∀ e ∈ r, JsMap.WF e.2

/-- The room `rooms.get(roomId)` as the join handler sees it after line 182:
the stored room, or the new empty one. -/
def roomOrNew (rooms : Registry) (roomId : JsVal) : CallRoom :=
  (rooms.get? roomId).getD []

/-- The ids that are members of room `roomId` (none when the room is not in
the registry), the id `userId` left out. -/
def membersExcept (rooms : Registry) (roomId userId : JsVal) : List JsVal :=
  (roomOrNew rooms roomId).keys.filter (fun id => !JsVal.strictEq id userId)

/-- The event a relay handler forwards to the socket `t`: the event name and
the payload `{ fromUserId, <field> }` with the two values as received. -/
def relayed (t : SockId) (event field : String) (payload : JsVal) : Delivery :=
  { dest := t, event := event,
    payload := [("fromUserId", payload.getProp "fromUserId"), (field, payload.getProp field)] }

/-- Whether an emission is addressed to the broadcast room (personal channel)
named `u`: `socket.in(x)` addresses the room `x`, and each item of `x` when
`x` is an array. -/
def addressedTo (u : JsVal) (e : Emit) : Bool :=
  match e.target with
  | Target.room (JsVal.arr _ names) => names.any (fun name => JsVal.sameValueZero name u)
  | Target.room name => JsVal.sameValueZero name u
  | Target.self => false

/-- Whether a message is a `call:offer` from user `a` to user `b`. -/
def isOffer (a b : JsVal) (e : ClientEmit) : Bool :=
  decide (e.event = Event.callOffer) &&
    JsVal.sameValueZero (e.payload.getProp "fromUserId") a &&
    JsVal.sameValueZero (e.payload.getProp "toUserId") b

/-- Number of `call:offer` messages sent from user `a` to user `b`. -/
def offersSent (sent : List ClientEmit) (a b : JsVal) : Nat :=
  sent.countP (isOffer a b)

/-- Every connection id stored in a room of the registry is the id of a
connected socket. -/
def NoStale (st : Server) : Prop :=
  ∀ e ∈ st.callRooms, ∀ x ∈ e.2, x.2 ∈ st.openIds

/-- The one emission a `call:accept` or `call:reject` message causes:
`call:accepted` resp. `call:rejected` with payload `roomId`, `userId`, to the
personal channel `fromUserId`. -/
def inviteReply (m : ClientEmit) : Emit :=
  { target := Target.room (m.payload.getProp "fromUserId"),
    event := if m.event = Event.callAccept then "call:accepted" else "call:rejected",
    payload := [("roomId", m.payload.getProp "roomId"), ("userId", m.payload.getProp "userId")] }

/-- The two-party call up to the leave: `A` joins room `R` on socket `a`, `B`
joins it on socket `b`, `B` sends an offer to `A`, `A` answers `B`, and `A`
leaves. -/
def twoPartyCall (a b : SockId) (R A B nameA nameB offer answer : JsVal) : List Action :=
  [Action.emit a Event.callJoin (JsVal.obj 1 [("roomId", R), ("userId", A), ("name", nameA)]),
   Action.emit b Event.callJoin (JsVal.obj 2 [("roomId", R), ("userId", B), ("name", nameB)]),
   Action.emit b Event.callOffer
     (JsVal.obj 3 [("roomId", R), ("fromUserId", B), ("toUserId", A), ("offer", offer)]),
   Action.emit a Event.callAnswer
     (JsVal.obj 4 [("roomId", R), ("fromUserId", A), ("toUserId", B), ("answer", answer)]),
   Action.emit a Event.callLeave (JsVal.obj 5 [("roomId", R), ("userId", A)])]

/-- Every connection stored in a room of the registry has joined the
broadcast room of that name. -/
def MembersSubscribed (st : Server) : Prop :=
  ∀ e ∈ st.callRooms, ∀ x ∈ e.2, x.2 ∈ subscribers st.sockets e.1

/-! ## Sample data -/

/-- Sample state: room `R1` holds `A` on connection `c1` and `B` on `c2`, room
`R2` holds `A` on `c1`; `c3` is connected and in no call room. -/
def sampleServer : Server :=
  { callRooms := [(JsVal.str "R1", [(JsVal.str "A", "c1"), (JsVal.str "B", "c2")]),
                  (JsVal.str "R2", [(JsVal.str "A", "c1")])],
    sockets := [{ id := "c1", rooms := [JsVal.str "c1", JsVal.str "R1", JsVal.str "R2"] },
                { id := "c2", rooms := [JsVal.str "c2", JsVal.str "R1"] },
                { id := "c3", rooms := [JsVal.str "c3"] }] }

/-- Sample server: three connected sockets and an empty registry. -/
def freshServer : Server :=
  { callRooms := [],
    sockets := [{ id := "c1", rooms := [JsVal.str "c1"] },
                { id := "c2", rooms := [JsVal.str "c2"] },
                { id := "c3", rooms := [JsVal.str "c3"] }] }

/-- A `call:join` payload `{ roomId, userId, name }` held at address `addr`. -/
def joinMsg (addr : Nat) (roomId userId name : JsVal) : JsVal :=
  JsVal.obj addr [("roomId", roomId), ("userId", userId), ("name", name)]

/-- A `call:leave` payload `{ roomId, userId }` held at address `addr`. -/
def leaveMsg (addr : Nat) (roomId userId : JsVal) : JsVal :=
  JsVal.obj addr [("roomId", roomId), ("userId", userId)]

/-- A relay payload `{ roomId, fromUserId, toUserId, <field>: body }` held at
address `addr`; `field` is `offer`, `answer` or `candidate`. -/
def relayMsg (addr : Nat) (field : String) (roomId fromUserId toUserId body : JsVal) : JsVal :=
  JsVal.obj addr
    [("roomId", roomId), ("fromUserId", fromUserId), ("toUserId", toUserId), (field, body)]

/-- A user object `{ _id, name }`. -/
def userObj (addr : Nat) (id name : JsVal) : JsVal :=
  JsVal.obj addr [("_id", id), ("name", name)]

/-- A `call:initiate` payload `{ roomId, fromUser, recipients, isGroup }`. -/
def initiateMsg (addr : Nat) (roomId fromUser recipients isGroup : JsVal) : JsVal :=
  JsVal.obj addr [("roomId", roomId), ("fromUser", fromUser), ("recipients", recipients),
                  ("isGroup", isGroup)]

/-- A `call:cancel` payload `{ roomId, recipients, fromUserId }`. -/
def cancelMsg (addr : Nat) (roomId recipients fromUserId : JsVal) : JsVal :=
  JsVal.obj addr [("roomId", roomId), ("recipients", recipients), ("fromUserId", fromUserId)]

/-- Sample component of user `userId` on socket `sock` for room `R1`; `ready`
is whether `getUserMedia` has given it a local stream. -/
def sampleClient (sock : SockId) (userId : String) (ready : Bool) : Client :=
  { sock := sock, roomId := JsVal.str "R1", userId := JsVal.str userId,
    name := JsVal.str userId, localStream := ready,
    createOffer := fun _ => JsVal.str "offer", createAnswer := fun _ => JsVal.str "answer" }

/-- Sample run: `c1` and `c2` connect, `A` joins room `R1` on `c1`, `B` joins
it on `c2`, and `c1` disconnects. -/
def sampleActions : List Action :=
  [Action.connect "c1", Action.connect "c2",
   Action.emit "c1" Event.callJoin (joinMsg 1 (JsVal.str "R1") (JsVal.str "A") (JsVal.str "Alice")),
   Action.emit "c2" Event.callJoin (joinMsg 2 (JsVal.str "R1") (JsVal.str "B") (JsVal.str "Bob")),
   Action.disconnect "c1"]

/-- The state the sample run ends in: room `R1` holds `B` on `c2`, the one
connected socket. -/
def sampleWorld : World :=
  { server := { callRooms := [(JsVal.str "R1", [(JsVal.str "B", "c2")])],
                sockets := [{ id := "c2", rooms := [JsVal.str "c2", JsVal.str "R1"] }] },
    used := ["c2", "c1"] }

/-- A `call:accept` or `call:reject` payload `{ roomId, fromUserId, userId }`. -/
def replyMsg (addr : Nat) (roomId fromUserId userId : JsVal) : JsVal :=
  JsVal.obj addr [("roomId", roomId), ("fromUserId", fromUserId), ("userId", userId)]

/-- Sample server for the invites: the users `A`, `B`, `C`, `D` are connected
on the sockets `a`, `b`, `c`, `d`, each on its personal channel after `setup`;
the registry is empty. -/
def ringingServer : Server :=
  { callRooms := [],
    sockets := [{ id := "a", rooms := [JsVal.str "a", JsVal.str "A"] },
                { id := "b", rooms := [JsVal.str "b", JsVal.str "B"] },
                { id := "c", rooms := [JsVal.str "c", JsVal.str "C"] },
                { id := "d", rooms := [JsVal.str "d", JsVal.str "D"] }] }

/-- The actions that lead to `ringingServer`: four connections, each followed
by `setup` with the user object. -/
def ringingActions : List Action :=
  [Action.connect "a", Action.emit "a" Event.setup (userObj 1 (JsVal.str "A") (JsVal.str "Alice")),
   Action.connect "b", Action.emit "b" Event.setup (userObj 2 (JsVal.str "B") (JsVal.str "Bob")),
   Action.connect "c", Action.emit "c" Event.setup (userObj 3 (JsVal.str "C") (JsVal.str "Carol")),
   Action.connect "d", Action.emit "d" Event.setup (userObj 4 (JsVal.str "D") (JsVal.str "Dan"))]

/-- Sample run with a leave: `c1` and `c2` connect, `A` joins room `R1` on
`c1`, `B` joins it on `c2`, and `A` leaves on `c1`. -/
def leaveActions : List Action :=
  [Action.connect "c1", Action.connect "c2",
   Action.emit "c1" Event.callJoin (joinMsg 1 (JsVal.str "R1") (JsVal.str "A") (JsVal.str "Alice")),
   Action.emit "c2" Event.callJoin (joinMsg 2 (JsVal.str "R1") (JsVal.str "B") (JsVal.str "Bob")),
   Action.emit "c1" Event.callLeave (leaveMsg 3 (JsVal.str "R1") (JsVal.str "A"))]

/-- The state `leaveActions` ends in: room `R1` holds `B` on `c2`, which is
in the broadcast room `R1`; `c1` is not. -/
def leaveWorld : World :=
  { server := { callRooms := [(JsVal.str "R1", [(JsVal.str "B", "c2")])],
                sockets := [{ id := "c1", rooms := [JsVal.str "c1"] },
                            { id := "c2", rooms := [JsVal.str "c2", JsVal.str "R1"] }] },
    used := ["c2", "c1"] }

/-- Sample run in which `B`, on `c2`, sends the leave of `A`: `c1` and `c2`
connect, `A` joins room `R1` on `c1`, `B` joins it on `c2`, and `c2` sends
`call:leave` for `A`. -/
def strayLeaveActions : List Action :=
  [Action.connect "c1", Action.connect "c2",
   Action.emit "c1" Event.callJoin (joinMsg 1 (JsVal.str "R1") (JsVal.str "A") (JsVal.str "Alice")),
   Action.emit "c2" Event.callJoin (joinMsg 2 (JsVal.str "R1") (JsVal.str "B") (JsVal.str "Bob")),
   Action.emit "c2" Event.callLeave (leaveMsg 3 (JsVal.str "R1") (JsVal.str "A"))]

/-- The request `GET /api/user?search=<script>alert(1)</script>` when
`validateInput` runs: no body parsed yet, one query parameter, no route
parameters. -/
def scriptRequest : Request :=
  { body := JsVal.undefined,
    query := JsVal.obj 1 [("search", JsVal.str "<script>alert(1)</script>")],
    params := JsVal.obj 2 [] }

/-- A request with no suspicious string. -/
def plainRequest : Request :=
  { body := JsVal.undefined,
    query := JsVal.obj 1 [("search", JsVal.str "alice")],
    params := JsVal.obj 2 [] }

/-! # Theorems

## Equality of values and lookups in maps -/

namespace JsVal

theorem sameValueZero_refl (a : JsVal) : sameValueZero a a = true := by
  cases a <;> simp [sameValueZero]

theorem sameValueZero_symm (a b : JsVal) : sameValueZero a b = sameValueZero b a := by
  cases a <;> cases b <;> simp [sameValueZero, eq_comm]

theorem sameValueZero_trans {a b c : JsVal} (h1 : sameValueZero a b = true)
    (h2 : sameValueZero b c = true) : sameValueZero a c = true := by
  cases a <;> cases b <;> simp [sameValueZero] at h1 <;>
    cases c <;> simp [sameValueZero] at h2 ⊢ <;> simp_all

theorem sameValueZero_congr_left {a b : JsVal} (h : sameValueZero a b = true) (c : JsVal) :
    sameValueZero a c = sameValueZero b c := by
  cases hb : sameValueZero b c
  · cases ha : sameValueZero a c
    · rfl
    · have := sameValueZero_trans ((sameValueZero_symm b a).trans h) ha
      rw [hb] at this; cases this
  · exact sameValueZero_trans h hb

theorem sameValueZero_congr_right {a b : JsVal} (h : sameValueZero a b = true) (c : JsVal) :
    sameValueZero c a = sameValueZero c b := by
  rw [sameValueZero_symm c a, sameValueZero_symm c b]
  exact sameValueZero_congr_left h c

theorem sameValueZero_str_iff (a b : String) : sameValueZero (str a) (str b) = true ↔ a = b := by
  simp [sameValueZero]

end JsVal


namespace JsMap

variable {β : Type}

theorem get?_congr {k k' : JsVal} (h : JsVal.sameValueZero k k' = true) (m : JsMap β) :
    get? m k = get? m k' := by
  induction m with
  | nil => rfl
  | cons e rest ih =>
    obtain ⟨a, v⟩ := e
    simp only [get?, JsVal.sameValueZero_congr_right h a, ih]

theorem get?_set_self (m : JsMap β) (k : JsVal) (v : β) : get? (set m k v) k = some v := by
  induction m with
  | nil => simp [set, get?, JsVal.sameValueZero_refl]
  | cons e rest ih =>
    obtain ⟨a, w⟩ := e
    by_cases h : JsVal.sameValueZero a k = true
    · simp [set, get?, h]
    · simp [set, get?, h, ih]

theorem get?_set_of_ne (m : JsMap β) {k k' : JsVal} (v : β)
    (h : JsVal.sameValueZero k' k = false) : get? (set m k v) k' = get? m k' := by
  induction m with
  | nil =>
    simp [set, get?, JsVal.sameValueZero_symm k k', h]
  | cons e rest ih =>
    obtain ⟨a, w⟩ := e
    by_cases hk : JsVal.sameValueZero a k = true
    · have hak : JsVal.sameValueZero a k' = false := by
        rw [JsVal.sameValueZero_congr_left hk k', JsVal.sameValueZero_symm]; exact h
      simp [set, get?, hk, hak]
    · simp [set, get?, hk, ih]

theorem filter_ne_set (m : JsMap β) (k : JsVal) (v : β) :
    (set m k v).filter (fun e => !JsVal.sameValueZero e.1 k)
      = m.filter (fun e => !JsVal.sameValueZero e.1 k) := by
  induction m with
  | nil => simp [set, JsVal.sameValueZero_refl]
  | cons e rest ih =>
    obtain ⟨a, w⟩ := e
    by_cases hk : JsVal.sameValueZero a k = true
    · simp [set, hk]
    · simp [set, hk, ih]

theorem countP_set_of_absent (m : JsMap β) (k : JsVal) (v : β)
    (h : ∀ e ∈ m, JsVal.sameValueZero e.1 k = false) :
    (set m k v).countP (fun e => JsVal.sameValueZero e.1 k) = 1 := by
  induction m with
  | nil => simp [set, JsVal.sameValueZero_refl]
  | cons e rest ih =>
    obtain ⟨a, w⟩ := e
    have ha : JsVal.sameValueZero a k = false := h (a, w) (List.mem_cons_self _ _)
    have hr : ∀ e ∈ rest, JsVal.sameValueZero e.1 k = false :=
      fun e he => h e (List.mem_cons_of_mem _ he)
    simp [set, ha, ih hr]

theorem countP_set (m : JsMap β) (k : JsVal) (v : β) (hwf : WF m) :
    (set m k v).countP (fun e => JsVal.sameValueZero e.1 k) = 1 := by
  induction m with
  | nil => simp [set, JsVal.sameValueZero_refl]
  | cons e rest ih =>
    obtain ⟨a, w⟩ := e
    have hp := List.pairwise_cons.mp hwf
    by_cases hk : JsVal.sameValueZero a k = true
    · have hr : ∀ e ∈ rest, JsVal.sameValueZero e.1 k = false := by
        intro e he
        rw [← JsVal.sameValueZero_congr_right hk e.1, JsVal.sameValueZero_symm]
        exact hp.1 e he
      have h0 : rest.countP (fun e => JsVal.sameValueZero e.1 k) = 0 := by
        rw [List.countP_eq_zero]
        intro e he; simp [hr e he]
      simp [set, hk, h0]
    · simp [set, hk, ih hp.2]

theorem key_of_mem_set (m : JsMap β) (k : JsVal) (v : β) {e : JsVal × β}
    (he : e ∈ set m k v) : (∃ e' ∈ m, e'.1 = e.1) ∨ e.1 = k := by
  induction m with
  | nil => simp [set] at he; right; rw [he]
  | cons x rest ih =>
    obtain ⟨a, w⟩ := x
    by_cases hk : JsVal.sameValueZero a k = true
    · simp only [set, hk, if_true, List.mem_cons] at he
      rcases he with rfl | he
      · exact Or.inl ⟨(a, w), List.mem_cons_self _ _, rfl⟩
      · exact Or.inl ⟨e, List.mem_cons_of_mem _ he, rfl⟩
    · simp only [set, hk, Bool.false_eq_true, if_false, List.mem_cons] at he
      rcases he with rfl | he
      · exact Or.inl ⟨(a, w), List.mem_cons_self _ _, rfl⟩
      · rcases ih he with ⟨e', he', hk'⟩ | hk'
        · exact Or.inl ⟨e', List.mem_cons_of_mem _ he', hk'⟩
        · exact Or.inr hk'

theorem val_of_mem_set (m : JsMap β) (k : JsVal) (v : β) {e : JsVal × β}
    (he : e ∈ set m k v) : e ∈ m ∨ e.2 = v := by
  induction m with
  | nil => simp [set] at he; right; rw [he]
  | cons x rest ih =>
    obtain ⟨a, w⟩ := x
    by_cases hk : JsVal.sameValueZero a k = true
    · simp only [set, hk, if_true, List.mem_cons] at he
      rcases he with rfl | he
      · exact Or.inr rfl
      · exact Or.inl (List.mem_cons_of_mem _ he)
    · simp only [set, hk, Bool.false_eq_true, if_false, List.mem_cons] at he
      rcases he with rfl | he
      · exact Or.inl (List.mem_cons_self _ _)
      · rcases ih he with h | h
        · exact Or.inl (List.mem_cons_of_mem _ h)
        · exact Or.inr h

theorem WF_set (m : JsMap β) (k : JsVal) (v : β) (hwf : WF m) : WF (set m k v) := by
  induction m with
  | nil => simp [set, WF]
  | cons e rest ih =>
    obtain ⟨a, w⟩ := e
    have hp := List.pairwise_cons.mp hwf
    by_cases hk : JsVal.sameValueZero a k = true
    · simp only [set, hk, if_true]
      exact List.pairwise_cons.mpr ⟨hp.1, hp.2⟩
    · simp only [set, hk]
      refine List.pairwise_cons.mpr ⟨?_, ih hp.2⟩
      intro e he
      rcases key_of_mem_set rest k v he with ⟨e', he', hk'⟩ | hk'
      · rw [← hk']; exact hp.1 e' he'
      · rw [hk']; exact Bool.eq_false_iff.mpr hk

theorem get?_mem {m : JsMap β} {k : JsVal} {v : β} (h : get? m k = some v) :
    ∃ a, (a, v) ∈ m ∧ JsVal.sameValueZero a k = true := by
  induction m with
  | nil => simp [get?] at h
  | cons e rest ih =>
    obtain ⟨a, w⟩ := e
    by_cases hk : JsVal.sameValueZero a k = true
    · simp only [get?, hk, if_true, Option.some.injEq] at h
      exact ⟨a, by simp [h], hk⟩
    · simp only [get?, hk] at h
      obtain ⟨b, hb, hbk⟩ := ih h
      exact ⟨b, List.mem_cons_of_mem _ hb, hbk⟩

theorem get?_delete_self (m : JsMap β) (k : JsVal) : get? (delete m k) k = none := by
  induction m with
  | nil => rfl
  | cons e rest ih =>
    obtain ⟨a, w⟩ := e
    by_cases hk : JsVal.sameValueZero a k = true
    · simpa [delete, List.filter_cons, hk] using ih
    · have : get? (List.filter (fun e => !JsVal.sameValueZero e.1 k) rest) k = none := ih
      simp [delete, List.filter_cons, hk, get?, this]

theorem get?_delete_of_ne (m : JsMap β) {k k' : JsVal}
    (h : JsVal.sameValueZero k' k = false) : get? (delete m k) k' = get? m k' := by
  induction m with
  | nil => rfl
  | cons e rest ih =>
    obtain ⟨a, w⟩ := e
    have ih' : get? (List.filter (fun e => !JsVal.sameValueZero e.1 k) rest) k' = get? rest k' := ih
    by_cases hk : JsVal.sameValueZero a k = true
    · have hak : JsVal.sameValueZero a k' = false := by
        rw [JsVal.sameValueZero_congr_left hk k', JsVal.sameValueZero_symm]; exact h
      simp [delete, List.filter_cons, hk, get?, hak, ih']
    · simp [delete, List.filter_cons, hk, get?, ih']

theorem WF_delete (m : JsMap β) (k : JsVal) (hwf : WF m) : WF (delete m k) :=
  List.Pairwise.filter _ hwf

end JsMap


theorem onCallJoin_eq (st : Server) (sock : SockId) (payload : JsVal)
    (h : payload.isNullish = false) :
    onCallJoin st sock payload =
      Outcome.returned
        { callRooms :=
            (if !st.callRooms.has (payload.getProp "roomId")
              then st.callRooms.set (payload.getProp "roomId") [] else st.callRooms).set
              (payload.getProp "roomId")
              ((roomOrNew st.callRooms (payload.getProp "roomId")).set
                (payload.getProp "userId") sock),
          sockets := socketJoin st.sockets sock (payload.getProp "roomId") }
        [{ target := Target.room (payload.getProp "roomId"), event := "call:user-joined",
           payload := [("userId", payload.getProp "userId"), ("name", payload.getProp "name")] },
         { target := Target.self, event := "call:users-in-room",
           payload := [("users", JsVal.arr 0
             (((roomOrNew st.callRooms (payload.getProp "roomId")).set
                (payload.getProp "userId") sock).keys.filter
               (fun id => !JsVal.strictEq id (payload.getProp "userId"))))] }] := by
  have hroom : ((if !st.callRooms.has (payload.getProp "roomId")
              then st.callRooms.set (payload.getProp "roomId") [] else st.callRooms).get?
                (payload.getProp "roomId")).getD []
            = roomOrNew st.callRooms (payload.getProp "roomId") := by
    unfold roomOrNew
    cases hh : st.callRooms.get? (payload.getProp "roomId") with
    | none => simp [JsMap.has, hh, JsMap.get?_set_self]
    | some r => simp [JsMap.has, hh]
  simp only [onCallJoin, h, hroom]
  rfl

/-! ## Join -/

theorem roomOrNew_WF {rooms : Registry} (hwf : RegistryWF rooms) (R : JsVal) :
    JsMap.WF (roomOrNew rooms R) := by
  unfold roomOrNew
  cases h : rooms.get? R with
  | none => simp [JsMap.WF]
  | some room =>
    obtain ⟨a, ha, _⟩ := JsMap.get?_mem h
    exact hwf.2 (a, room) ha

/-- The registry a returning `call:join` leaves. -/
theorem onCallJoin_callRooms (st : Server) (sock : SockId) (payload : JsVal)
    (h : payload.isNullish = false) :
    (onCallJoin st sock payload).state.callRooms.get? (payload.getProp "roomId")
        = some ((roomOrNew st.callRooms (payload.getProp "roomId")).set
            (payload.getProp "userId") sock) ∧
    (onCallJoin st sock payload).state.callRooms.filter
        (fun e => !JsVal.sameValueZero e.1 (payload.getProp "roomId"))
      = st.callRooms.filter (fun e => !JsVal.sameValueZero e.1 (payload.getProp "roomId")) := by
  rw [onCallJoin_eq st sock payload h]
  refine ⟨JsMap.get?_set_self _ _ _, ?_⟩
  simp only [Outcome.state]
  rw [JsMap.filter_ne_set]
  split
  · exact JsMap.filter_ne_set _ _ _
  · rfl

/-- C1 (idempotent join): handling `call:join` for the same room id `R` and
participant id `P` on a connection `c1` and then on a connection `c2` (any two
connections, different ones included) returns both times and leaves room `R`
with exactly one entry for `P`, bound to `c2`; the entries of the other
participants of `R` and the entries of the other rooms are the same lists as
before. -/
theorem join_twice_one_entry (st : Server) (c1 c2 : SockId) (p1 p2 R P : JsVal)
    (hwf : RegistryWF st.callRooms)
    (h1 : p1.isNullish = false) (hR1 : p1.getProp "roomId" = R) (hP1 : p1.getProp "userId" = P)
    (h2 : p2.isNullish = false) (hR2 : p2.getProp "roomId" = R) (hP2 : p2.getProp "userId" = P) :
    (onCallJoin st c1 p1).isReturned = true ∧
    (onCallJoin (onCallJoin st c1 p1).state c2 p2).isReturned = true ∧
    ∃ room,
      (onCallJoin (onCallJoin st c1 p1).state c2 p2).state.callRooms.get? R = some room ∧
      room.countP (fun e => JsVal.sameValueZero e.1 P) = 1 ∧
      room.get? P = some c2 ∧
      room.filter (fun e => !JsVal.sameValueZero e.1 P)
        = (roomOrNew st.callRooms R).filter (fun e => !JsVal.sameValueZero e.1 P) ∧
      (onCallJoin (onCallJoin st c1 p1).state c2 p2).state.callRooms.filter
          (fun e => !JsVal.sameValueZero e.1 R)
        = st.callRooms.filter (fun e => !JsVal.sameValueZero e.1 R) := by
  have a1 := onCallJoin_callRooms st c1 p1 h1
  have a2 := onCallJoin_callRooms (onCallJoin st c1 p1).state c2 p2 h2
  rw [hR1, hP1] at a1
  rw [hR2, hP2] at a2
  have hroom : roomOrNew (onCallJoin st c1 p1).state.callRooms R
      = (roomOrNew st.callRooms R).set P c1 := by
    simp [roomOrNew, a1.1]
  rw [hroom] at a2
  refine ⟨by rw [onCallJoin_eq st c1 p1 h1]; rfl, by rw [onCallJoin_eq _ c2 p2 h2]; rfl,
    _, a2.1, ?_, JsMap.get?_set_self _ _ _, ?_, ?_⟩
  · exact JsMap.countP_set _ _ _ (JsMap.WF_set _ _ _ (roomOrNew_WF hwf R))
  · rw [JsMap.filter_ne_set, JsMap.filter_ne_set]
  · rw [a2.2, a1.2]

theorem sampleServer_WF : RegistryWF sampleServer.callRooms := by
  unfold RegistryWF JsMap.WF
  decide

theorem join_twice_one_entry_witness :
    RegistryWF sampleServer.callRooms ∧
    ∃ room,
      (onCallJoin (onCallJoin sampleServer "c3"
          (joinMsg 1 (JsVal.str "R1") (JsVal.str "B") (JsVal.str "Bob"))).state "c1"
          (joinMsg 2 (JsVal.str "R1") (JsVal.str "B") (JsVal.str "Bob"))).state.callRooms.get?
        (JsVal.str "R1") = some room ∧
      room.countP (fun e => JsVal.sameValueZero e.1 (JsVal.str "B")) = 1 ∧
      room.get? (JsVal.str "B") = some "c1" :=
  ⟨sampleServer_WF,
    match (join_twice_one_entry sampleServer "c3" "c1"
      (joinMsg 1 (JsVal.str "R1") (JsVal.str "B") (JsVal.str "Bob"))
      (joinMsg 2 (JsVal.str "R1") (JsVal.str "B") (JsVal.str "Bob"))
      (JsVal.str "R1") (JsVal.str "B") sampleServer_WF rfl rfl rfl rfl rfl rfl).2.2 with
    | ⟨room, h, hc, hg, _⟩ => ⟨room, h, hc, hg⟩⟩

/-! ## Leave -/

theorem onCallLeave_eq (st : Server) (sock : SockId) (payload : JsVal) (room : CallRoom)
    (h : payload.isNullish = false)
    (hroom : st.callRooms.get? (payload.getProp "roomId") = some room) :
    onCallLeave st sock payload =
      Outcome.returned
        { callRooms :=
            if (room.delete (payload.getProp "userId")).size = 0 then
              (st.callRooms.set (payload.getProp "roomId")
                (room.delete (payload.getProp "userId"))).delete (payload.getProp "roomId")
            else st.callRooms.set (payload.getProp "roomId")
                (room.delete (payload.getProp "userId")),
          sockets := socketLeave st.sockets sock (payload.getProp "roomId") }
        [{ target := Target.room (payload.getProp "roomId"), event := "call:user-left",
           payload := [("userId", payload.getProp "userId")] }] := by
  simp only [onCallLeave, h, hroom]
  rfl

theorem relay_of_room_absent (event field : String) (st : Server) (sock : SockId)
    (payload : JsVal) (h : payload.isNullish = false)
    (hroom : st.callRooms.get? (payload.getProp "roomId") = none) :
    relay event field st sock payload = Outcome.returned st [] := by
  simp [relay, h, hroom]

/-- C2 (leave emptiness): when room `R` holds exactly the one participant `P`,
handling `call:leave` for `R` and `P` returns and leaves a registry without
`R`, so that every relay message for room `R` finds nothing and is dropped;
and when the room keeps members after the removal of `P`, `R` stays in the
registry with exactly the remaining entries. -/
theorem leave_emptiness (st : Server) (sock : SockId) (payload R P : JsVal)
    (h : payload.isNullish = false)
    (hR : payload.getProp "roomId" = R) (hP : payload.getProp "userId" = P) :
    (∀ c, st.callRooms.get? R = some [(P, c)] →
      (onCallLeave st sock payload).isReturned = true ∧
      (onCallLeave st sock payload).state.callRooms.get? R = none ∧
      ∀ (event field : String) (s : SockId) (msg : JsVal),
        msg.isNullish = false → msg.getProp "roomId" = R →
        relay event field (onCallLeave st sock payload).state s msg
          = Outcome.returned (onCallLeave st sock payload).state []) ∧
    (∀ room, st.callRooms.get? R = some room → room.delete P ≠ [] →
      (onCallLeave st sock payload).isReturned = true ∧
      (onCallLeave st sock payload).state.callRooms.get? R = some (room.delete P)) := by
  subst hR hP
  constructor
  · intro c hc
    have hgone : (onCallLeave st sock payload).state.callRooms.get? (payload.getProp "roomId")
        = none := by
      rw [onCallLeave_eq st sock payload _ h hc]
      simp [Outcome.state, JsMap.delete, JsMap.size, JsVal.sameValueZero_refl]
      exact JsMap.get?_delete_self _ _
    refine ⟨by rw [onCallLeave_eq st sock payload _ h hc]; rfl, hgone, ?_⟩
    intro event field s msg hmsg hroom
    exact relay_of_room_absent event field _ s msg hmsg (by rw [hroom]; exact hgone)
  · intro room hroom hne
    rw [onCallLeave_eq st sock payload _ h hroom]
    have hsz : ¬ (room.delete (payload.getProp "userId")).size = 0 := by
      intro h0
      exact hne (List.length_eq_zero.mp h0)
    simp only [Outcome.isReturned, Outcome.state, hsz, if_false, true_and]
    exact JsMap.get?_set_self _ _ _

theorem leave_emptiness_witness :
    ((onCallLeave sampleServer "c1" (leaveMsg 1 (JsVal.str "R2") (JsVal.str "A"))).isReturned
        = true ∧
      (onCallLeave sampleServer "c1"
        (leaveMsg 1 (JsVal.str "R2") (JsVal.str "A"))).state.callRooms.get? (JsVal.str "R2")
        = none) ∧
    ((onCallLeave sampleServer "c1" (leaveMsg 1 (JsVal.str "R1") (JsVal.str "A"))).isReturned
        = true ∧
      (onCallLeave sampleServer "c1"
        (leaveMsg 1 (JsVal.str "R1") (JsVal.str "A"))).state.callRooms.get? (JsVal.str "R1")
        = some [(JsVal.str "B", "c2")]) :=
  ⟨match (leave_emptiness sampleServer "c1" (leaveMsg 1 (JsVal.str "R2") (JsVal.str "A"))
      (JsVal.str "R2") (JsVal.str "A") rfl rfl rfl).1 "c1" rfl with
    | ⟨hr, hg, _⟩ => ⟨hr, hg⟩,
   (leave_emptiness sampleServer "c1" (leaveMsg 1 (JsVal.str "R1") (JsVal.str "A"))
      (JsVal.str "R1") (JsVal.str "A") rfl rfl rfl).2
        [(JsVal.str "A", "c1"), (JsVal.str "B", "c2")] rfl
        (List.cons_ne_nil (JsVal.str "B", "c2") [])⟩

/-! ## Disconnect -/

theorem sweepRoom_fst (sock : SockId) (roomId : JsVal) (room : CallRoom) :
    (sweepRoom sock roomId room).1 = room.filter (fun x => decide (x.2 ≠ sock)) := by
  induction room with
  | nil => rfl
  | cons e rest ih =>
    obtain ⟨u, s⟩ := e
    by_cases h : s = sock
    · simp [sweepRoom, h, ih]
    · simp [sweepRoom, h, ih]

theorem sweepRoom_snd (sock : SockId) (roomId : JsVal) (room : CallRoom) :
    (sweepRoom sock roomId room).2 =
      (room.filter (fun x => decide (x.2 = sock))).map
        (fun x => { target := Target.room roomId, event := "call:user-left",
                    payload := [("userId", x.1)] }) := by
  induction room with
  | nil => rfl
  | cons e rest ih =>
    obtain ⟨u, s⟩ := e
    by_cases h : s = sock
    · simp [sweepRoom, h, ih]
    · simp [sweepRoom, h, ih]

theorem sweepRooms_fst (sock : SockId) (rooms : Registry) :
    (sweepRooms sock rooms).1 =
      (rooms.map (fun e => (e.1, e.2.filter (fun x => decide (x.2 ≠ sock))))).filter
        (fun e => !e.2.isEmpty) := by
  induction rooms with
  | nil => rfl
  | cons e rest ih =>
    obtain ⟨r, room⟩ := e
    simp only [sweepRooms, sweepRoom_fst, JsMap.size, List.map_cons, List.filter_cons, ih]
    generalize List.filter (fun x => decide (x.2 ≠ sock)) room = fr
    cases fr <;> simp

theorem sweepRooms_snd (sock : SockId) (rooms : Registry) :
    (sweepRooms sock rooms).2 =
      rooms.flatMap (fun e =>
        (e.2.filter (fun x => decide (x.2 = sock))).map
          (fun x => { target := Target.room e.1, event := "call:user-left",
                      payload := [("userId", x.1)] })) := by
  induction rooms with
  | nil => rfl
  | cons e rest ih =>
    obtain ⟨r, room⟩ := e
    simp only [sweepRooms, sweepRoom_snd, List.flatMap_cons]
    split <;> simp [ih]

/-- C3 (disconnect sweep): the disconnect handler of a connection `c` returns
and leaves the registry in which every room has lost exactly its entries bound
to `c` and the rooms left empty are gone; it emits, in registry order, one
`call:user-left` to the room for each removed entry and nothing else, and
leaves the sockets alone.  Hence no entry bound to `c` remains, the entries
bound to another connection are the ones there were, no room is empty, and no
invite event is emitted. -/
theorem disconnect_sweep (st : Server) (c : SockId) :
    (onDisconnect st c).isReturned = true ∧
    (onDisconnect st c).state.callRooms =
      (st.callRooms.map (fun e => (e.1, e.2.filter (fun x => decide (x.2 ≠ c))))).filter
        (fun e => !e.2.isEmpty) ∧
    (onDisconnect st c).emits =
      st.callRooms.flatMap (fun e =>
        (e.2.filter (fun x => decide (x.2 = c))).map
          (fun x => { target := Target.room e.1, event := "call:user-left",
                      payload := [("userId", x.1)] })) ∧
    (onDisconnect st c).state.sockets = st.sockets ∧
    (∀ e ∈ (onDisconnect st c).state.callRooms, ∀ x ∈ e.2, x.2 ≠ c) ∧
    (∀ (R u : JsVal) (s : SockId), s ≠ c →
      ((∃ room, (R, room) ∈ (onDisconnect st c).state.callRooms ∧ (u, s) ∈ room) ↔
        (∃ room, (R, room) ∈ st.callRooms ∧ (u, s) ∈ room))) ∧
    (∀ e ∈ (onDisconnect st c).state.callRooms, e.2 ≠ []) ∧
    (∀ e ∈ (onDisconnect st c).emits,
      e.event = "call:user-left" ∧
      e.event ∉ ["call:incoming", "call:accepted", "call:rejected", "call:canceled"]) := by
  have hrooms : (onDisconnect st c).state.callRooms =
      (st.callRooms.map (fun e => (e.1, e.2.filter (fun x => decide (x.2 ≠ c))))).filter
        (fun e => !e.2.isEmpty) := sweepRooms_fst c st.callRooms
  have hemits : (onDisconnect st c).emits = _ := sweepRooms_snd c st.callRooms
  refine ⟨rfl, hrooms, hemits, rfl, ?_, ?_, ?_, ?_⟩
  · intro e he x hx
    rw [hrooms] at he
    simp only [List.mem_filter, List.mem_map] at he
    obtain ⟨⟨e0, _, rfl⟩, _⟩ := he
    simpa using (List.mem_filter.mp hx).2
  · intro R u s hs
    rw [hrooms]
    constructor
    · rintro ⟨room, hroom, hu⟩
      simp only [List.mem_filter, List.mem_map] at hroom
      obtain ⟨⟨e0, he0, heq⟩, _⟩ := hroom
      obtain ⟨r0, room0⟩ := e0
      simp only [Prod.mk.injEq] at heq
      obtain ⟨rfl, rfl⟩ := heq
      exact ⟨room0, he0, (List.mem_filter.mp hu).1⟩
    · rintro ⟨room, hroom, hu⟩
      have hu' : (u, s) ∈ room.filter (fun x => decide (x.2 ≠ c)) :=
        List.mem_filter.mpr ⟨hu, by simpa using hs⟩
      refine ⟨room.filter (fun x => decide (x.2 ≠ c)), ?_, hu'⟩
      simp only [List.mem_filter, List.mem_map]
      refine ⟨⟨(R, room), hroom, rfl⟩, ?_⟩
      cases hf : room.filter (fun x => decide (x.2 ≠ c)) with
      | nil => rw [hf] at hu'; cases hu'
      | cons a l => rfl
  · intro e he
    rw [hrooms] at he
    have := (List.mem_filter.mp he).2
    intro h0
    rw [h0] at this
    simp at this
  · intro e he
    rw [hemits] at he
    simp only [List.mem_flatMap, List.mem_map] at he
    obtain ⟨_, _, _, _, rfl⟩ := he
    exact ⟨rfl, (by decide :
      "call:user-left" ∉ ["call:incoming", "call:accepted", "call:rejected", "call:canceled"])⟩

theorem disconnect_sweep_witness :
    (onDisconnect sampleServer "c1").state.callRooms
        = [(JsVal.str "R1", [(JsVal.str "B", "c2")])] ∧
    (onDisconnect sampleServer "c1").emits
        = [{ target := Target.room (JsVal.str "R1"), event := "call:user-left",
             payload := [("userId", JsVal.str "A")] },
           { target := Target.room (JsVal.str "R2"), event := "call:user-left",
             payload := [("userId", JsVal.str "A")] }] :=
  ⟨(disconnect_sweep sampleServer "c1").2.1, (disconnect_sweep sampleServer "c1").2.2.1⟩

/-! ## Relay -/

theorem relay_of_target_absent (event field : String) (st : Server) (sock : SockId)
    (payload : JsVal) (h : payload.isNullish = false)
    (habsent : ∀ room, st.callRooms.get? (payload.getProp "roomId") = some room →
      room.get? (payload.getProp "toUserId") = none) :
    relay event field st sock payload = Outcome.returned st [] := by
  cases hroom : st.callRooms.get? (payload.getProp "roomId") with
  | none => exact relay_of_room_absent event field st sock payload h hroom
  | some room => simp [relay, h, hroom, habsent room hroom]

/-- C4 (relay drop safety): when the room of a `call:offer`, `call:answer` or
`call:ice` message is not in the registry, or the room is there and holds no
entry for `toUserId`, the handler returns (no exception), makes no emission
and leaves the state as it was. -/
theorem relay_drop_safety (st : Server) (sock : SockId) (payload : JsVal)
    (h : payload.isNullish = false)
    (habsent : ∀ room, st.callRooms.get? (payload.getProp "roomId") = some room →
      room.get? (payload.getProp "toUserId") = none) :
    onCallOffer st sock payload = Outcome.returned st [] ∧
    onCallAnswer st sock payload = Outcome.returned st [] ∧
    onCallIce st sock payload = Outcome.returned st [] :=
  ⟨relay_of_target_absent _ _ st sock payload h habsent,
   relay_of_target_absent _ _ st sock payload h habsent,
   relay_of_target_absent _ _ st sock payload h habsent⟩

theorem relay_drop_safety_witness :
    (onCallOffer sampleServer "c1"
        (relayMsg 1 "offer" (JsVal.str "R1") (JsVal.str "A") (JsVal.str "Z") (JsVal.str "sdp"))
      = Outcome.returned sampleServer []) ∧
    (onCallIce sampleServer "c1"
        (relayMsg 1 "candidate" (JsVal.str "R9") (JsVal.str "A") (JsVal.str "B") (JsVal.str "x"))
      = Outcome.returned sampleServer []) :=
  ⟨(relay_drop_safety sampleServer "c1"
      (relayMsg 1 "offer" (JsVal.str "R1") (JsVal.str "A") (JsVal.str "Z") (JsVal.str "sdp"))
      rfl (fun room hroom => by
        have : room = [(JsVal.str "A", "c1"), (JsVal.str "B", "c2")] :=
          (Option.some.inj hroom).symm
        subst this; rfl)).1,
   (relay_drop_safety sampleServer "c1"
      (relayMsg 1 "candidate" (JsVal.str "R9") (JsVal.str "A") (JsVal.str "B") (JsVal.str "x"))
      rfl (fun room hroom => by cases hroom)).2.2⟩

theorem deliver_room (sockets : List Conn) (sender : SockId) (name : JsVal) (event : String)
    (payload : List (String × JsVal)) :
    deliver sockets sender { target := Target.room name, event := event, payload := payload }
      = ((subscribers sockets name).filter (fun i => i != sender)).map
          (fun i => { dest := i, event := event, payload := payload }) := by
  simp only [deliver, subscribers]
  induction sockets with
  | nil => rfl
  | cons c rest ih =>
    by_cases h1 : c.id = sender <;>
      by_cases h2 : (c.rooms.any fun x => JsVal.sameValueZero x name) = true <;>
      simp [List.filter_cons, h1, h2, ih]

theorem relay_of_target (event field : String) (st : Server) (sock t : SockId)
    (payload : JsVal) (room : CallRoom) (h : payload.isNullish = false)
    (hroom : st.callRooms.get? (payload.getProp "roomId") = some room)
    (ht : room.get? (payload.getProp "toUserId") = some t) (hne : t ≠ "") :
    relay event field st sock payload =
      Outcome.returned st
        [{ target := Target.room (JsVal.str t), event := event,
           payload := [("fromUserId", payload.getProp "fromUserId"),
                       (field, payload.getProp field)] }] := by
  simp [relay, h, hroom, ht, hne]

theorem relay_deliveries (event field : String) (st : Server) (sock t : SockId)
    (payload : JsVal) (room : CallRoom) (h : payload.isNullish = false)
    (hroom : st.callRooms.get? (payload.getProp "roomId") = some room)
    (ht : room.get? (payload.getProp "toUserId") = some t) (hne : t ≠ "")
    (honly : subscribers st.sockets (JsVal.str t) = [t]) :
    relay event field st sock payload = Outcome.returned st
        [{ target := Target.room (JsVal.str t), event := event,
           payload := [("fromUserId", payload.getProp "fromUserId"),
                       (field, payload.getProp field)] }] ∧
    (relay event field st sock payload).deliveries sock
      = if sock = t then [] else [relayed t event field payload] := by
  have hr := relay_of_target event field st sock t payload room h hroom ht hne
  refine ⟨hr, ?_⟩
  rw [hr]
  simp only [Outcome.deliveries, Outcome.emits, Outcome.state, List.flatMap_cons,
    List.flatMap_nil, List.append_nil, deliver_room, honly]
  by_cases hs : sock = t
  · subst hs; simp
  · have : (t != sock) = true := by simpa using fun h => hs h.symm
    simp [List.filter_cons, this, hs, relayed]

/-- C5 (targeted verbatim relay), as the code has it: when `toUserId` has an
entry in room `roomId` bound to the connection id `t`, and `t` is the one
connected socket that has joined the broadcast room named `t`, each of
`call:offer`, `call:answer` and `call:ice` returns, leaves the state as it
was and makes one emission, addressed to the room named `t`, whose payload is
`fromUserId` and the body exactly as received.  It is delivered once, to `t`
and to no other socket, when the sender is another connection than `t`; when
the sender is `t` itself nothing is delivered. -/
theorem relay_targeted_verbatim (st : Server) (sock t : SockId) (payload : JsVal)
    (room : CallRoom) (h : payload.isNullish = false)
    (hroom : st.callRooms.get? (payload.getProp "roomId") = some room)
    (ht : room.get? (payload.getProp "toUserId") = some t) (hne : t ≠ "")
    (honly : subscribers st.sockets (JsVal.str t) = [t]) :
    (onCallOffer st sock payload = Outcome.returned st
        [{ target := Target.room (JsVal.str t), event := "call:offer",
           payload := [("fromUserId", payload.getProp "fromUserId"),
                       ("offer", payload.getProp "offer")] }] ∧
      (onCallOffer st sock payload).deliveries sock
        = if sock = t then [] else [relayed t "call:offer" "offer" payload]) ∧
    (onCallAnswer st sock payload = Outcome.returned st
        [{ target := Target.room (JsVal.str t), event := "call:answer",
           payload := [("fromUserId", payload.getProp "fromUserId"),
                       ("answer", payload.getProp "answer")] }] ∧
      (onCallAnswer st sock payload).deliveries sock
        = if sock = t then [] else [relayed t "call:answer" "answer" payload]) ∧
    (onCallIce st sock payload = Outcome.returned st
        [{ target := Target.room (JsVal.str t), event := "call:ice",
           payload := [("fromUserId", payload.getProp "fromUserId"),
                       ("candidate", payload.getProp "candidate")] }] ∧
      (onCallIce st sock payload).deliveries sock
        = if sock = t then [] else [relayed t "call:ice" "candidate" payload]) :=
  ⟨relay_deliveries _ _ st sock t payload room h hroom ht hne honly,
   relay_deliveries _ _ st sock t payload room h hroom ht hne honly,
   relay_deliveries _ _ st sock t payload room h hroom ht hne honly⟩

theorem relay_targeted_verbatim_witness :
    (onCallOffer sampleServer "c2"
        (relayMsg 1 "offer" (JsVal.str "R1") (JsVal.str "B") (JsVal.str "A")
          (JsVal.str "sdp"))).deliveries "c2"
      = [{ dest := "c1", event := "call:offer",
           payload := [("fromUserId", JsVal.str "B"), ("offer", JsVal.str "sdp")] }] :=
  (relay_targeted_verbatim sampleServer "c2" "c1"
    (relayMsg 1 "offer" (JsVal.str "R1") (JsVal.str "B") (JsVal.str "A") (JsVal.str "sdp"))
    [(JsVal.str "A", "c1"), (JsVal.str "B", "c2")] rfl rfl rfl (by decide) rfl).1.2

/-- C5 as stated fails in two ways.  In the sample state `A` is bound to `c1`
in room `R1`.  An offer to `A` sent on `c1` itself is delivered to nobody;
and once `c3` has joined the broadcast room named `c1` (by `join chat`), an
offer to `A` sent on `c2` is delivered to `c3` as well as to `c1`. -/
theorem relay_not_always_one_delivery :
    (sampleServer.callRooms.get? (JsVal.str "R1")).bind
        (fun room => room.get? (JsVal.str "A")) = some "c1" ∧
    (onCallOffer sampleServer "c1"
        (relayMsg 1 "offer" (JsVal.str "R1") (JsVal.str "B") (JsVal.str "A")
          (JsVal.str "sdp"))).deliveries "c1" = [] ∧
    ((onJoinChat sampleServer "c3" (JsVal.str "c1")).state.callRooms.get? (JsVal.str "R1")).bind
        (fun room => room.get? (JsVal.str "A")) = some "c1" ∧
    ((onCallOffer (onJoinChat sampleServer "c3" (JsVal.str "c1")).state "c2"
        (relayMsg 1 "offer" (JsVal.str "R1") (JsVal.str "B") (JsVal.str "A")
          (JsVal.str "sdp"))).deliveries "c2").map Delivery.dest = ["c1", "c3"] := by
  refine ⟨rfl, rfl, rfl, rfl⟩

/-! ## Join roster -/

theorem JsMap.keys_set_filter {β : Type} (m : JsMap β) (k : JsVal) (v : β) :
    (JsMap.keys (JsMap.set m k v)).filter (fun id => !JsVal.strictEq id k)
      = (JsMap.keys m).filter (fun id => !JsVal.strictEq id k) := by
  induction m with
  | nil => simp [JsMap.set, JsMap.keys, JsVal.strictEq, JsVal.sameValueZero_refl]
  | cons e rest ih =>
    obtain ⟨a, w⟩ := e
    simp only [JsMap.keys] at ih
    by_cases hk : JsVal.sameValueZero a k = true
    · simp [JsMap.set, JsMap.keys, hk]
    · simp [JsMap.set, JsMap.keys, hk, List.filter_cons, ih]

theorem onCallJoin_emits (st : Server) (sock : SockId) (payload : JsVal)
    (h : payload.isNullish = false) :
    (onCallJoin st sock payload).emits =
      [{ target := Target.room (payload.getProp "roomId"), event := "call:user-joined",
         payload := [("userId", payload.getProp "userId"), ("name", payload.getProp "name")] },
       { target := Target.self, event := "call:users-in-room",
         payload := [("users", JsVal.arr 0
           (membersExcept st.callRooms (payload.getProp "roomId")
             (payload.getProp "userId")))] }] := by
  rw [onCallJoin_eq st sock payload h, JsMap.keys_set_filter]
  rfl

/-- C7 (join roster and ordering): a `call:join` with room id `R`, user id
`P` and name `N` returns after exactly two emissions, in this order: first
`call:user-joined` with payload `P`, `N`, broadcast to room `R`; then
`call:users-in-room` to the joining socket, whose `users` are the keys the
room had before this join (none when the room was not there) without `P`.
So the roster never holds the joiner; the broadcast is delivered to the
sockets that joined room `R` other than the joiner, never to the joiner; and
the roster is delivered to the joiner, last. -/
theorem join_roster_and_ordering (st : Server) (sock : SockId) (payload : JsVal)
    (h : payload.isNullish = false) :
    (onCallJoin st sock payload).isReturned = true ∧
    (onCallJoin st sock payload).emits =
      [{ target := Target.room (payload.getProp "roomId"), event := "call:user-joined",
         payload := [("userId", payload.getProp "userId"), ("name", payload.getProp "name")] },
       { target := Target.self, event := "call:users-in-room",
         payload := [("users", JsVal.arr 0
           (membersExcept st.callRooms (payload.getProp "roomId") (payload.getProp "userId")))] }] ∧
    (∀ u ∈ membersExcept st.callRooms (payload.getProp "roomId") (payload.getProp "userId"),
        JsVal.strictEq u (payload.getProp "userId") = false) ∧
    (st.callRooms.get? (payload.getProp "roomId") = none →
      membersExcept st.callRooms (payload.getProp "roomId") (payload.getProp "userId") = []) ∧
    (onCallJoin st sock payload).deliveries sock =
      ((subscribers (onCallJoin st sock payload).state.sockets
          (payload.getProp "roomId")).filter (fun i => i != sock)).map
        (fun i => { dest := i, event := "call:user-joined",
                    payload := [("userId", payload.getProp "userId"),
                                ("name", payload.getProp "name")] })
      ++ [{ dest := sock, event := "call:users-in-room",
            payload := [("users", JsVal.arr 0
              (membersExcept st.callRooms (payload.getProp "roomId") (payload.getProp "userId")))] }] ∧
    (∀ d ∈ (onCallJoin st sock payload).deliveries sock,
      d.event = "call:user-joined" → d.dest ≠ sock) := by
  have hemits := onCallJoin_emits st sock payload h
  have hdel : (onCallJoin st sock payload).deliveries sock =
      ((subscribers (onCallJoin st sock payload).state.sockets
          (payload.getProp "roomId")).filter (fun i => i != sock)).map
        (fun i => { dest := i, event := "call:user-joined",
                    payload := [("userId", payload.getProp "userId"),
                                ("name", payload.getProp "name")] })
      ++ [{ dest := sock, event := "call:users-in-room",
            payload := [("users", JsVal.arr 0
              (membersExcept st.callRooms (payload.getProp "roomId")
                (payload.getProp "userId")))] }] := by
    simp only [Outcome.deliveries, hemits, List.flatMap_cons, List.flatMap_nil,
      List.append_nil, deliver_room]
    rfl
  refine ⟨by rw [onCallJoin_eq st sock payload h]; rfl, hemits, ?_, ?_, hdel, ?_⟩
  · intro u hu
    simpa using (List.mem_filter.mp hu).2
  · intro hnone
    simp [membersExcept, roomOrNew, hnone, JsMap.keys]
  · intro d hd hev
    rw [hdel, List.mem_append] at hd
    rcases hd with hd | hd
    · simp only [List.mem_map, List.mem_filter] at hd
      obtain ⟨i, ⟨_, hi⟩, rfl⟩ := hd
      simpa using hi
    · simp only [List.mem_singleton] at hd
      rw [hd] at hev
      exact absurd hev (by decide : ¬ "call:users-in-room" = "call:user-joined")

theorem join_roster_and_ordering_witness :
    (onCallJoin sampleServer "c3"
        (joinMsg 1 (JsVal.str "R1") (JsVal.str "C") (JsVal.str "Carol"))).deliveries "c3"
      = [{ dest := "c1", event := "call:user-joined",
           payload := [("userId", JsVal.str "C"), ("name", JsVal.str "Carol")] },
         { dest := "c2", event := "call:user-joined",
           payload := [("userId", JsVal.str "C"), ("name", JsVal.str "Carol")] },
         { dest := "c3", event := "call:users-in-room",
           payload := [("users", JsVal.arr 0 [JsVal.str "A", JsVal.str "B"])] }] :=
  (join_roster_and_ordering sampleServer "c3"
    (joinMsg 1 (JsVal.str "R1") (JsVal.str "C") (JsVal.str "Carol")) rfl).2.2.2.2.1

/-! ## Mesh formation -/

theorem relay_state (event field : String) (st : Server) (sock : SockId) (payload : JsVal) :
    (relay event field st sock payload).state = st := by
  unfold relay
  split
  · rfl
  · simp only
    split
    · rfl
    · split
      · rfl
      · split <;> rfl

theorem relay_emits_event (event field : String) (st : Server) (sock : SockId)
    (payload : JsVal) : ∀ e ∈ (relay event field st sock payload).emits, e.event = event := by
  unfold relay
  split
  · simp [Outcome.emits]
  · simp only
    split
    · simp [Outcome.emits]
    · split
      · simp [Outcome.emits]
      · split <;> simp [Outcome.emits]

theorem deliver_event (sockets : List Conn) (sender : SockId) (e : Emit) :
    ∀ d ∈ deliver sockets sender e, d.event = e.event := by
  intro d hd
  unfold deliver at hd
  split at hd
  · simp only [List.mem_singleton] at hd; rw [hd]
  · simp only [List.mem_map] at hd
    obtain ⟨_, _, rfl⟩ := hd
    rfl

theorem deliveries_event (o : Outcome) (sender : SockId) (event : String)
    (h : ∀ e ∈ o.emits, e.event = event) : ∀ d ∈ o.deliveries sender, d.event = event := by
  intro d hd
  simp only [Outcome.deliveries, List.mem_flatMap] at hd
  obtain ⟨e, he, hde⟩ := hd
  rw [deliver_event _ _ e d hde, h e he]

theorem onCallJoin_deliveries (st : Server) (sock : SockId) (payload : JsVal)
    (h : payload.isNullish = false) :
    (onCallJoin st sock payload).deliveries sock =
      ((subscribers (socketJoin st.sockets sock (payload.getProp "roomId"))
          (payload.getProp "roomId")).filter (fun i => i != sock)).map
        (fun i => { dest := i, event := "call:user-joined",
                    payload := [("userId", payload.getProp "userId"),
                                ("name", payload.getProp "name")] })
      ++ [{ dest := sock, event := "call:users-in-room",
            payload := [("users", JsVal.arr 0
              (membersExcept st.callRooms (payload.getProp "roomId")
                (payload.getProp "userId")))] }] := by
  have hs : (onCallJoin st sock payload).state.sockets
      = socketJoin st.sockets sock (payload.getProp "roomId") := by
    rw [onCallJoin_eq st sock payload h]; rfl
  simp only [Outcome.deliveries, onCallJoin_emits st sock payload h, List.flatMap_cons,
    List.flatMap_nil, List.append_nil, deliver_room, hs]
  rfl

theorem socketJoin_ids (sockets : List Conn) (c : SockId) (r : JsVal) :
    (socketJoin sockets c r).map Conn.id = sockets.map Conn.id := by
  induction sockets with
  | nil => rfl
  | cons x rest ih =>
    simp only [socketJoin] at ih
    by_cases h : x.id = c <;> simp [socketJoin, h, ih]

theorem mem_subscribers {sockets : List Conn} {name : JsVal} {s : SockId} :
    s ∈ subscribers sockets name ↔
      ∃ x ∈ sockets, x.id = s ∧ x.rooms.any (fun r => JsVal.sameValueZero r name) = true := by
  simp only [subscribers, List.mem_map, List.mem_filter]
  constructor
  · rintro ⟨x, ⟨hx, hr⟩, rfl⟩; exact ⟨x, hx, rfl, hr⟩
  · rintro ⟨x, hx, rfl, hr⟩; exact ⟨x, ⟨hx, hr⟩, rfl⟩

theorem subscribers_nodup {sockets : List Conn} (h : (sockets.map Conn.id).Nodup)
    (name : JsVal) : (subscribers sockets name).Nodup :=
  List.Nodup.sublist (List.Sublist.map _ (List.filter_sublist _)) h

theorem addRoom_any (rooms : List JsVal) (r name : JsVal)
    (h : rooms.any (fun x => JsVal.sameValueZero x name) = true) :
    (addRoom rooms r).any (fun x => JsVal.sameValueZero x name) = true := by
  unfold addRoom
  split
  · exact h
  · simp only [List.any_append, h, Bool.true_or]

theorem addRoom_self (rooms : List JsVal) (r : JsVal) :
    (addRoom rooms r).any (fun x => JsVal.sameValueZero x r) = true := by
  unfold addRoom
  split
  · assumption
  · simp [List.any_append, JsVal.sameValueZero_refl]

theorem subscribers_socketJoin_mono (sockets : List Conn) (c : SockId) (r name : JsVal)
    {s : SockId} (h : s ∈ subscribers sockets name) :
    s ∈ subscribers (socketJoin sockets c r) name := by
  obtain ⟨x, hx, hid, hr⟩ := mem_subscribers.mp h
  refine mem_subscribers.mpr ?_
  by_cases hc : x.id = c
  · refine ⟨{ x with rooms := addRoom x.rooms r }, ?_, hid, addRoom_any _ _ _ hr⟩
    simp only [socketJoin, List.mem_map]
    exact ⟨x, hx, by simp [hc]⟩
  · refine ⟨x, ?_, hid, hr⟩
    simp only [socketJoin, List.mem_map]
    exact ⟨x, hx, by simp [hc]⟩

theorem subscribers_socketJoin_self (sockets : List Conn) (c : SockId) (r : JsVal)
    (h : c ∈ sockets.map Conn.id) : c ∈ subscribers (socketJoin sockets c r) r := by
  obtain ⟨x, hx, hid⟩ := List.mem_map.mp h
  refine mem_subscribers.mpr ⟨{ x with rooms := addRoom x.rooms r }, ?_, hid, addRoom_self _ _⟩
  simp only [socketJoin, List.mem_map]
  exact ⟨x, hx, by simp [hid]⟩

theorem JsMap.set_of_absent {β : Type} (m : JsMap β) (k : JsVal) (v : β)
    (h : ∀ e ∈ m, JsVal.sameValueZero e.1 k = false) : JsMap.set m k v = m ++ [(k, v)] := by
  induction m with
  | nil => rfl
  | cons e rest ih =>
    obtain ⟨a, w⟩ := e
    have ha : JsVal.sameValueZero a k = false := h (a, w) (List.mem_cons_self _ _)
    simp [JsMap.set, ha, ih (fun e he => h e (List.mem_cons_of_mem _ he))]

theorem reactAll_nil (clients : List Client) (ds : List Delivery)
    (h : ∀ cl ∈ clients, ∀ d ∈ ds, cl.handle d.event d.payload = []) :
    reactAll clients ds = [] := by
  simp only [reactAll, List.flatMap_eq_nil_iff]
  intro d hd cl hcl
  split
  · exact h cl hcl d hd
  · rfl

theorem onCallJoin_deliveries_event (st : Server) (sock : SockId) (payload : JsVal) :
    ∀ d ∈ (onCallJoin st sock payload).deliveries sock,
      d.event = "call:user-joined" ∨ d.event = "call:users-in-room" := by
  intro d hd
  cases h : payload.isNullish with
  | true =>
    simp [onCallJoin, h, Outcome.deliveries, Outcome.emits] at hd
  | false =>
    rw [onCallJoin_deliveries st sock payload h, List.mem_append] at hd
    rcases hd with hd | hd
    · obtain ⟨_, _, rfl⟩ := List.mem_map.mp hd
      exact Or.inl rfl
    · rw [List.mem_singleton.mp hd]
      exact Or.inr rfl

theorem startOfferTo_firstRender (cl : Client) (otherUserId : JsVal) :
    cl.firstRender.startOfferTo otherUserId = [] := by
  simp [Client.startOfferTo, Client.firstRender]

theorem handle_users_in_room (cl : Client) (payload : List (String × JsVal)) :
    cl.handle "call:users-in-room" payload = [] := by
  simp only [Client.handle, if_true]
  split
  · simp [List.flatMap_eq_nil_iff, startOfferTo_firstRender]
  · rfl

theorem handle_user_joined (cl : Client) (payload : List (String × JsVal)) :
    cl.handle "call:user-joined" payload = [] := by
  simp [Client.handle, startOfferTo_firstRender]

theorem handle_not_offer (cl : Client) (event : String) (payload : List (String × JsVal)) :
    ∀ e ∈ cl.handle event payload, e.event = Event.callAnswer := by
  intro e he
  unfold Client.handle at he
  split at he
  · split at he
    · simp [List.mem_flatMap, startOfferTo_firstRender] at he
    · cases he
  · split at he
    · rw [startOfferTo_firstRender] at he; cases he
    · split at he
      · simp only [List.mem_singleton] at he; rw [he]
      · cases he

/-- One join of the mesh: the join is the one message sent, and no message is
left to exchange after the rounds of `Mesh.join`. -/
theorem mesh_join_sent (m : Mesh) (cl : Client) :
    (m.join cl).sent = m.sent ++ [cl.joinEmit] ∧ m.joinPending cl = [] := by
  have he1 : reactAll (m.mounted ++ [cl]) (serveAll m.server [cl.joinEmit]).2 = [] := by
    apply reactAll_nil
    intro c _ d hd
    have hd' : d ∈ (onCallJoin m.server cl.sock cl.joinEmit.payload).deliveries cl.sock := by
      simpa [serveAll, Client.joinEmit, handle] using hd
    rcases onCallJoin_deliveries_event _ _ _ d hd' with h | h
    · rw [h]; exact handle_user_joined c d.payload
    · rw [h]; exact handle_users_in_room c d.payload
  have hnil : ∀ cs : List Client, reactAll cs [] = [] := fun _ => rfl
  have hserve : ∀ st : Server, serveAll st [] = (st, []) := fun _ => rfl
  constructor
  · simp only [Mesh.join]
    rw [he1]
    simp only [hserve, hnil, List.append_nil]
  · simp only [Mesh.joinPending]
    rw [he1]
    simp only [hserve, hnil]

theorem mesh_joinAll_sent (m : Mesh) (cs : List Client) :
    (m.joinAll cs).sent = m.sent ++ cs.map Client.joinEmit := by
  induction cs generalizing m with
  | nil => simp [Mesh.joinAll]
  | cons c rest ih =>
    have h := ih (m.join c)
    simp only [Mesh.joinAll, List.foldl_cons] at h ⊢
    rw [h, (mesh_join_sent m c).1]
    simp

/-- C6 (mesh completeness), the code against the claim.  Whatever the server
state and the components that join, one after the other, the only messages
the components send are their `call:join`: no `call:offer` is ever sent from
a user to another, and no message is left to exchange after a join.  So for
`A` and then `B` joining room `R1`, both with a local stream, where the claim
has one offer from `B` to `A`, there is none in either direction. -/
theorem mesh_sends_no_offer :
    (∀ (st : Server) (cs : List Client),
      ((Mesh.start st).joinAll cs).sent = cs.map Client.joinEmit ∧
      ∀ a b : JsVal, offersSent ((Mesh.start st).joinAll cs).sent a b = 0) ∧
    (∀ (m : Mesh) (cl : Client), m.joinPending cl = []) ∧
    (sampleClient "c1" "A" true).localStream = true ∧
    (sampleClient "c2" "B" true).localStream = true ∧
    offersSent ((Mesh.start freshServer).joinAll
        [sampleClient "c1" "A" true, sampleClient "c2" "B" true]).sent
      (JsVal.str "B") (JsVal.str "A") = 0 ∧
    offersSent ((Mesh.start freshServer).joinAll
        [sampleClient "c1" "A" true, sampleClient "c2" "B" true]).sent
      (JsVal.str "A") (JsVal.str "B") = 0 := by
  have hall : ∀ (st : Server) (cs : List Client),
      ((Mesh.start st).joinAll cs).sent = cs.map Client.joinEmit ∧
      ∀ a b : JsVal, offersSent ((Mesh.start st).joinAll cs).sent a b = 0 := by
    intro st cs
    have hs : ((Mesh.start st).joinAll cs).sent = cs.map Client.joinEmit := by
      rw [mesh_joinAll_sent]; rfl
    refine ⟨hs, fun a b => ?_⟩
    rw [hs, offersSent, List.countP_eq_zero]
    intro e he
    obtain ⟨c, _, rfl⟩ := List.mem_map.mp he
    simp [isOffer, Client.joinEmit]
  exact ⟨hall, fun m cl => (mesh_join_sent m cl).2, rfl, rfl, (hall _ _).2 _ _, (hall _ _).2 _ _⟩

/-! ## Invite fan-out -/

theorem forEachEmit_total (body : JsVal → Option (List Emit)) (f : JsVal → List Emit)
    (hbody : ∀ u, body u = some (f u)) (items : List JsVal) :
    forEachEmit body items = (items.flatMap f, true) := by
  induction items with
  | nil => rfl
  | cons u rest ih => simp [forEachEmit, hbody u, ih]

theorem forEachEmit_throws (body : JsVal → Option (List Emit)) (hbody : ∀ u, body u = none)
    (items : List JsVal) : (forEachEmit body items).1 = [] := by
  cases items with
  | nil => rfl
  | cons u rest => simp [forEachEmit, hbody u]

theorem fanOut_eq (fromId : JsVal) (mk : JsVal → Emit) (items : List JsVal) :
    items.flatMap (fun uid => if JsVal.strictEq uid fromId then [] else [mk uid])
      = (items.filter (fun uid => !JsVal.strictEq uid fromId)).map mk := by
  induction items with
  | nil => rfl
  | cons u rest ih =>
    cases h : JsVal.strictEq u fromId <;> simp [List.flatMap_cons, List.filter_cons, h, ih]

theorem addressedTo_plain (u : JsVal) (e : Emit) (name : JsVal)
    (htarget : e.target = Target.room name) (hname : name.isArray = false) :
    addressedTo u e = JsVal.sameValueZero name u := by
  unfold addressedTo
  rw [htarget]
  cases name <;> first | rfl | cases hname

theorem fanOut_count (fromId u : JsVal) (mk : JsVal → Emit)
    (hmk : ∀ uid, (mk uid).target = Target.room uid) (items : List JsVal)
    (hplain : items.all (fun uid => !uid.isArray) = true) :
    ((items.filter (fun uid => !JsVal.strictEq uid fromId)).map mk).countP (addressedTo u)
      = if JsVal.strictEq u fromId then 0
        else items.countP (fun uid => JsVal.sameValueZero uid u) := by
  induction items with
  | nil => simp
  | cons x rest ih =>
    simp only [List.all_cons, Bool.and_eq_true, Bool.not_eq_true'] at hplain
    have ih := ih hplain.2
    by_cases hx : JsVal.strictEq x fromId = true
    · have hxu : JsVal.sameValueZero x u = JsVal.strictEq u fromId := by
        rw [JsVal.sameValueZero_congr_left hx u, JsVal.sameValueZero_symm]; rfl
      simp only [List.filter_cons, hx, Bool.not_true, Bool.false_eq_true, if_false, ih,
        List.countP_cons, hxu]
      split <;> simp_all
    · simp only [Bool.not_eq_true] at hx
      have hnot : JsVal.sameValueZero x u = true → JsVal.strictEq u fromId = false := by
        intro hxu
        rw [← hx]
        exact (JsVal.sameValueZero_congr_left hxu fromId).symm
      simp only [List.filter_cons, hx, Bool.not_false, if_true, List.map_cons,
        List.countP_cons, ih, addressedTo_plain u (mk x) x (hmk x) hplain.1]
      cases hxu : JsVal.sameValueZero x u
      · simp
      · simp [hnot hxu]

theorem onCallInitiate_eq (st : Server) (sock : SockId) (payload : JsVal) (addr : Nat)
    (items : List JsVal) (h : payload.isNullish = false)
    (hrec : payload.getProp "recipients" = JsVal.arr addr items)
    (hfrom : (payload.getProp "fromUser").isNullish = false) :
    onCallInitiate st sock payload = Outcome.returned st
      ((items.filter (fun uid =>
          !JsVal.strictEq uid ((payload.getProp "fromUser").getProp "_id"))).map
        (fun uid => { target := Target.room uid, event := "call:incoming",
                      payload := [("roomId", payload.getProp "roomId"),
                                  ("fromUser", payload.getProp "fromUser"),
                                  ("isGroup", payload.getProp "isGroup")] })) := by
  simp only [onCallInitiate, h, hrec, Bool.false_eq_true, if_false]
  rw [forEachEmit_total _ (fun uid =>
    if JsVal.strictEq uid ((payload.getProp "fromUser").getProp "_id") then []
    else [{ target := Target.room uid, event := "call:incoming",
            payload := [("roomId", payload.getProp "roomId"),
                        ("fromUser", payload.getProp "fromUser"),
                        ("isGroup", payload.getProp "isGroup")] }]), fanOut_eq]
  intro u
  simp only [initiateBody, JsVal.member?, hfrom, Bool.false_eq_true, if_false]
  split <;> rfl

theorem onCallCancel_eq (st : Server) (sock : SockId) (payload : JsVal) (addr : Nat)
    (items : List JsVal) (h : payload.isNullish = false)
    (hrec : payload.getProp "recipients" = JsVal.arr addr items) :
    onCallCancel st sock payload = Outcome.returned st
      ((items.filter (fun uid => !JsVal.strictEq uid (payload.getProp "fromUserId"))).map
        (fun uid => { target := Target.room uid, event := "call:canceled",
                      payload := [("roomId", payload.getProp "roomId"),
                                  ("fromUserId", payload.getProp "fromUserId")] })) := by
  simp only [onCallCancel, h, hrec, Bool.false_eq_true, if_false]
  rw [forEachEmit_total _ (fun uid =>
    if JsVal.strictEq uid (payload.getProp "fromUserId") then []
    else [{ target := Target.room uid, event := "call:canceled",
            payload := [("roomId", payload.getProp "roomId"),
                        ("fromUserId", payload.getProp "fromUserId")] }]), fanOut_eq]
  intro u
  simp only [cancelBody]
  split <;> rfl

/-- C10 (invite fan-out), as the code has it.  A `call:initiate` whose
`recipients` is an array and whose `fromUser` is there returns, leaves the
state alone and emits, in the order of the array, one
`call:incoming` with payload `roomId`, `fromUser`, `isGroup` to each item
that is not `fromUser._id`.  When no item is itself an array (an array is
taken by `socket.in` as a list of channels), a channel `u` is sent as many
events as `u` occurs in the array (one when it occurs once, none when it does
not occur), and the channel of the initiator is sent none.  When every item
is the initiator (the empty array included) nothing is emitted.
`call:cancel` with an array of recipients fans out `call:canceled` with
payload `roomId`, `fromUserId` by the same rule. -/
theorem invite_fan_out (st : Server) (sock : SockId) (p q : JsVal) (addr addr2 : Nat)
    (items items2 : List JsVal)
    (hp : p.isNullish = false) (hrec : p.getProp "recipients" = JsVal.arr addr items)
    (hfrom : (p.getProp "fromUser").isNullish = false)
    (hq : q.isNullish = false) (hrec2 : q.getProp "recipients" = JsVal.arr addr2 items2) :
    (onCallInitiate st sock p = Outcome.returned st
        ((items.filter (fun uid =>
            !JsVal.strictEq uid ((p.getProp "fromUser").getProp "_id"))).map
          (fun uid => { target := Target.room uid, event := "call:incoming",
                        payload := [("roomId", p.getProp "roomId"),
                                    ("fromUser", p.getProp "fromUser"),
                                    ("isGroup", p.getProp "isGroup")] })) ∧
      (items.all (fun uid => !uid.isArray) = true →
        ∀ u, (onCallInitiate st sock p).emits.countP (addressedTo u)
        = if JsVal.strictEq u ((p.getProp "fromUser").getProp "_id") then 0
          else items.countP (fun uid => JsVal.sameValueZero uid u)) ∧
      ((∀ uid ∈ items, JsVal.strictEq uid ((p.getProp "fromUser").getProp "_id") = true) →
        (onCallInitiate st sock p).emits = [])) ∧
    (onCallCancel st sock q = Outcome.returned st
        ((items2.filter (fun uid => !JsVal.strictEq uid (q.getProp "fromUserId"))).map
          (fun uid => { target := Target.room uid, event := "call:canceled",
                        payload := [("roomId", q.getProp "roomId"),
                                    ("fromUserId", q.getProp "fromUserId")] })) ∧
      (items2.all (fun uid => !uid.isArray) = true →
        ∀ u, (onCallCancel st sock q).emits.countP (addressedTo u)
        = if JsVal.strictEq u (q.getProp "fromUserId") then 0
          else items2.countP (fun uid => JsVal.sameValueZero uid u)) ∧
      ((∀ uid ∈ items2, JsVal.strictEq uid (q.getProp "fromUserId") = true) →
        (onCallCancel st sock q).emits = [])) := by
  have h1 := onCallInitiate_eq st sock p addr items hp hrec hfrom
  have h2 := onCallCancel_eq st sock q addr2 items2 hq hrec2
  refine ⟨⟨h1, ?_, ?_⟩, ⟨h2, ?_, ?_⟩⟩
  · intro hplain u
    rw [h1]
    exact fanOut_count _ u _ (fun _ => rfl) items hplain
  · intro hall
    rw [h1]
    simp only [Outcome.emits, List.map_eq_nil_iff, List.filter_eq_nil_iff]
    intro uid huid
    simp [hall uid huid]
  · intro hplain u
    rw [h2]
    exact fanOut_count _ u _ (fun _ => rfl) items2 hplain
  · intro hall
    rw [h2]
    simp only [Outcome.emits, List.map_eq_nil_iff, List.filter_eq_nil_iff]
    intro uid huid
    simp [hall uid huid]

theorem invite_fan_out_witness :
    (onCallInitiate sampleServer "c1"
        (initiateMsg 1 (JsVal.str "R1") (userObj 2 (JsVal.str "A") (JsVal.str "Alice"))
          (JsVal.arr 3 [JsVal.str "B", JsVal.str "A", JsVal.str "C"])
          (JsVal.bool true))).emits.countP (addressedTo (JsVal.str "B")) = 1 ∧
    (onCallCancel sampleServer "c1"
        (cancelMsg 4 (JsVal.str "R1")
          (JsVal.arr 5 [JsVal.str "B", JsVal.str "A", JsVal.str "C"])
          (JsVal.str "A"))).emits.countP (addressedTo (JsVal.str "A")) = 0 :=
  ⟨(invite_fan_out sampleServer "c1"
      (initiateMsg 1 (JsVal.str "R1") (userObj 2 (JsVal.str "A") (JsVal.str "Alice"))
        (JsVal.arr 3 [JsVal.str "B", JsVal.str "A", JsVal.str "C"]) (JsVal.bool true))
      (cancelMsg 4 (JsVal.str "R1")
        (JsVal.arr 5 [JsVal.str "B", JsVal.str "A", JsVal.str "C"]) (JsVal.str "A"))
      3 5 [JsVal.str "B", JsVal.str "A", JsVal.str "C"]
      [JsVal.str "B", JsVal.str "A", JsVal.str "C"] rfl rfl rfl rfl rfl).1.2.1 rfl (JsVal.str "B"),
   (invite_fan_out sampleServer "c1"
      (initiateMsg 1 (JsVal.str "R1") (userObj 2 (JsVal.str "A") (JsVal.str "Alice"))
        (JsVal.arr 3 [JsVal.str "B", JsVal.str "A", JsVal.str "C"]) (JsVal.bool true))
      (cancelMsg 4 (JsVal.str "R1")
        (JsVal.arr 5 [JsVal.str "B", JsVal.str "A", JsVal.str "C"]) (JsVal.str "A"))
      3 5 [JsVal.str "B", JsVal.str "A", JsVal.str "C"]
      [JsVal.str "B", JsVal.str "A", JsVal.str "C"] rfl rfl rfl rfl rfl).2.2.1 rfl (JsVal.str "A")⟩

/-- C10 as stated fails on a recipient listed twice: with recipients `B`,
`B` from the initiator `A`, the channel of `B` is sent two `call:incoming`,
and two `call:canceled` on cancel, not exactly one.  It fails as well on an
item that is an array: with the one recipient `["A"]` the channel of the
initiator `A` is addressed. -/
theorem invite_fan_out_repeats :
    (onCallInitiate sampleServer "c1"
        (initiateMsg 1 (JsVal.str "R1") (userObj 2 (JsVal.str "A") (JsVal.str "Alice"))
          (JsVal.arr 3 [JsVal.str "B", JsVal.str "B"])
          (JsVal.bool false))).emits.countP (addressedTo (JsVal.str "B")) = 2 ∧
    (onCallCancel sampleServer "c1"
        (cancelMsg 4 (JsVal.str "R1") (JsVal.arr 5 [JsVal.str "B", JsVal.str "B"])
          (JsVal.str "A"))).emits.countP (addressedTo (JsVal.str "B")) = 2 ∧
    (onCallInitiate sampleServer "c1"
        (initiateMsg 1 (JsVal.str "R1") (userObj 2 (JsVal.str "A") (JsVal.str "Alice"))
          (JsVal.arr 3 [JsVal.arr 6 [JsVal.str "A"]])
          (JsVal.bool false))).emits.countP (addressedTo (JsVal.str "A")) = 1 := by
  refine ⟨by decide, by decide, by decide⟩

/-! ## Handler failures -/

theorem relay_returned (event field : String) (st : Server) (sock : SockId) (payload : JsVal)
    (h : payload.isNullish = false) :
    (relay event field st sock payload).isReturned = true := by
  simp only [relay, h, Bool.false_eq_true, if_false]
  split
  · rfl
  · split
    · rfl
    · split <;> rfl

theorem onCallLeave_returned (st : Server) (sock : SockId) (payload : JsVal)
    (h : payload.isNullish = false) : (onCallLeave st sock payload).isReturned = true := by
  simp only [onCallLeave, h, Bool.false_eq_true, if_false]
  split <;> rfl

theorem onCallInitiate_returned (st : Server) (sock : SockId) (payload : JsVal)
    (h : payload.isNullish = false) : (onCallInitiate st sock payload).isReturned = true := by
  simp only [onCallInitiate, h, Bool.false_eq_true, if_false]
  split <;> rfl

theorem onCallCancel_returned (st : Server) (sock : SockId) (payload : JsVal)
    (h : payload.isNullish = false) : (onCallCancel st sock payload).isReturned = true := by
  simp only [onCallCancel, h, Bool.false_eq_true, if_false]
  split <;> rfl

theorem onCallInitiate_not_array (st : Server) (sock : SockId) (payload : JsVal)
    (h : payload.isNullish = false) (hrec : (payload.getProp "recipients").isArray = false) :
    onCallInitiate st sock payload = Outcome.returned st [] := by
  simp only [onCallInitiate, h, Bool.false_eq_true, if_false]
  split
  · rename_i heq
    rw [heq] at hrec
    cases hrec
  · rfl

theorem onCallInitiate_no_fromUser (st : Server) (sock : SockId) (payload : JsVal)
    (h : payload.isNullish = false) (hfrom : (payload.getProp "fromUser").isNullish = true) :
    onCallInitiate st sock payload = Outcome.returned st [] := by
  simp only [onCallInitiate, h, Bool.false_eq_true, if_false]
  split
  · rw [forEachEmit_throws]
    intro u
    simp [initiateBody, JsVal.member?, hfrom]
  · rfl

theorem onCallCancel_not_array (st : Server) (sock : SockId) (payload : JsVal)
    (h : payload.isNullish = false) (hrec : (payload.getProp "recipients").isArray = false) :
    onCallCancel st sock payload = Outcome.returned st [] := by
  simp only [onCallCancel, h, Bool.false_eq_true, if_false]
  split
  · rename_i heq
    rw [heq] at hrec
    cases hrec
  · rfl

/-- C8 (handler failures), as the code has it: on every payload that is
neither `undefined` (missing) nor `null`, each handler of the nine call
events, and that of `setup`, returns: no exception escapes; the handler of
`join chat` returns when its argument can be converted to a string for the
line it logs.  In `call:initiate`, a `recipients` that is not an array, or a
`fromUser` that is missing or null, gives no emission and no change of
state; in `call:cancel`, a `recipients` that is not an array gives none. -/
theorem handlers_return_on_payload (ev : Event) (st : Server) (sock : SockId) (payload : JsVal)
    (h : payload.isNullish = false) :
    ((ev = Event.joinChat → payload.toStringThrows = false) →
      (handle st sock ev payload).isReturned = true) ∧
    (ev = Event.callInitiate →
      (payload.getProp "recipients").isArray = false ∨
        (payload.getProp "fromUser").isNullish = true →
      handle st sock ev payload = Outcome.returned st []) ∧
    (ev = Event.callCancel → (payload.getProp "recipients").isArray = false →
      handle st sock ev payload = Outcome.returned st []) := by
  refine ⟨?_, ?_, ?_⟩
  · intro hconv
    cases ev
    · simp [handle, onSetup, JsVal.member?, h, Outcome.isReturned]
    · simp [handle, onJoinChat, hconv rfl, Outcome.isReturned]
    · exact onCallInitiate_returned st sock payload h
    · simp [handle, onCallAccept, h, Outcome.isReturned]
    · simp [handle, onCallReject, h, Outcome.isReturned]
    · exact onCallCancel_returned st sock payload h
    · show (onCallJoin st sock payload).isReturned = true
      rw [onCallJoin_eq st sock payload h]; rfl
    · exact relay_returned _ _ st sock payload h
    · exact relay_returned _ _ st sock payload h
    · exact relay_returned _ _ st sock payload h
    · exact onCallLeave_returned st sock payload h
  · rintro rfl (hrec | hfrom)
    · exact onCallInitiate_not_array st sock payload h hrec
    · exact onCallInitiate_no_fromUser st sock payload h hfrom
  · rintro rfl hrec
    exact onCallCancel_not_array st sock payload h hrec

theorem handlers_return_on_payload_witness :
    handle sampleServer "c1" Event.callInitiate
        (JsVal.obj 1 [("roomId", JsVal.str "R1"),
          ("recipients", JsVal.arr 2 [JsVal.str "B", JsVal.str "C"])])
      = Outcome.returned sampleServer [] ∧
    handle sampleServer "c1" Event.callCancel
        (JsVal.obj 1 [("roomId", JsVal.str "R1"), ("recipients", JsVal.str "B")])
      = Outcome.returned sampleServer [] :=
  ⟨(handlers_return_on_payload Event.callInitiate sampleServer "c1"
      (JsVal.obj 1 [("roomId", JsVal.str "R1"),
        ("recipients", JsVal.arr 2 [JsVal.str "B", JsVal.str "C"])]) rfl).2.1 rfl
      (Or.inr rfl),
   (handlers_return_on_payload Event.callCancel sampleServer "c1"
      (JsVal.obj 1 [("roomId", JsVal.str "R1"), ("recipients", JsVal.str "B")]) rfl).2.2 rfl
      rfl⟩

/-- C8 as stated fails.  A missing payload makes the handler throw:
the parameter is destructured before any `try` block is entered (in
`call:initiate`) and six handlers have no `try` block (here `call:offer`,
with a null payload).  And a payload that is not an object is not without
effect: a `call:join` with a string payload enters the sender into the room
`undefined` as the user `undefined` and makes both emissions. -/
theorem handlers_throw_or_act_on_malformed :
    (handle sampleServer "c1" Event.callInitiate JsVal.undefined).isReturned = false ∧
    (handle sampleServer "c1" Event.callOffer JsVal.null).isReturned = false ∧
    (handle sampleServer "c3" Event.callJoin (JsVal.str "x")).state.callRooms.get? JsVal.undefined
      = some [(JsVal.undefined, "c3")] ∧
    ((handle sampleServer "c3" Event.callJoin (JsVal.str "x")).emits.map Emit.event)
      = ["call:user-joined", "call:users-in-room"] := by
  refine ⟨rfl, rfl, rfl, rfl⟩

/-! ## No stale membership -/

theorem onJoinChat_state (st : Server) (sock : SockId) (room : JsVal) :
    (onJoinChat st sock room).state = { st with sockets := socketJoin st.sockets sock room } := by
  unfold onJoinChat
  split <;> rfl

theorem socketLeave_ids (sockets : List Conn) (c : SockId) (r : JsVal) :
    (socketLeave sockets c r).map Conn.id = sockets.map Conn.id := by
  induction sockets with
  | nil => rfl
  | cons x rest ih =>
    simp only [socketLeave] at ih
    by_cases h : x.id = c <;> simp [socketLeave, h, ih]

theorem noStale_of_subset {st st' : Server} (h : NoStale st)
    (hids : st'.openIds = st.openIds)
    (hsub : ∀ e ∈ st'.callRooms, ∀ x ∈ e.2, ∃ e0 ∈ st.callRooms, x ∈ e0.2) : NoStale st' := by
  intro e he x hx
  obtain ⟨e0, he0, hx0⟩ := hsub e he x hx
  rw [hids]
  exact h e0 he0 x hx0

theorem noStale_relay (event field : String) (st : Server) (sock : SockId) (payload : JsVal)
    (h : NoStale st) : NoStale (relay event field st sock payload).state := by
  rw [relay_state]; exact h

theorem noStale_join (st : Server) (sock : SockId) (payload : JsVal) (h : NoStale st)
    (hopen : sock ∈ st.openIds) : NoStale (onCallJoin st sock payload).state := by
  cases hn : payload.isNullish with
  | true => simpa [onCallJoin, hn, Outcome.state] using h
  | false =>
    rw [onCallJoin_eq st sock payload hn]
    intro e he x hx
    simp only [Outcome.state, Server.openIds, socketJoin_ids] at he ⊢
    have hroomOrNew : ∀ y ∈ roomOrNew st.callRooms (payload.getProp "roomId"),
        y.2 ∈ st.sockets.map Conn.id := by
      intro y hy
      unfold roomOrNew at hy
      cases hg : st.callRooms.get? (payload.getProp "roomId") with
      | none => rw [hg] at hy; cases hy
      | some room =>
        rw [hg] at hy
        obtain ⟨a, ha, _⟩ := JsMap.get?_mem hg
        exact h (a, room) ha y hy
    rcases JsMap.val_of_mem_set _ _ _ he with he | he
    · split at he
      · rcases JsMap.val_of_mem_set _ _ _ he with he | he
        · exact h e he x hx
        · rw [he] at hx; cases hx
      · exact h e he x hx
    · rw [he] at hx
      rcases JsMap.val_of_mem_set _ _ _ hx with hx | hx
      · exact hroomOrNew x hx
      · rw [hx]; exact hopen

theorem noStale_leave (st : Server) (sock : SockId) (payload : JsVal) (h : NoStale st) :
    NoStale (onCallLeave st sock payload).state := by
  cases hn : payload.isNullish with
  | true => simpa [onCallLeave, hn, Outcome.state] using h
  | false =>
    cases hg : st.callRooms.get? (payload.getProp "roomId") with
    | none => simpa [onCallLeave, hn, hg, Outcome.state] using h
    | some room =>
      rw [onCallLeave_eq st sock payload room hn hg]
      obtain ⟨a, ha, _⟩ := JsMap.get?_mem hg
      have hset : ∀ e ∈ st.callRooms.set (payload.getProp "roomId")
          (room.delete (payload.getProp "userId")), ∀ x ∈ e.2, x.2 ∈ st.openIds := by
        intro e he x hx
        rcases JsMap.val_of_mem_set _ _ _ he with he | he
        · exact h e he x hx
        · rw [he] at hx
          exact h (a, room) ha x (List.mem_filter.mp hx).1
      intro e he x hx
      simp only [Outcome.state, Server.openIds, socketLeave_ids] at he ⊢
      split at he
      · exact hset e (List.mem_filter.mp he).1 x hx
      · exact hset e he x hx

theorem noStale_disconnect (st : Server) (c : SockId) (h : NoStale st) :
    NoStale (onDisconnect { st with sockets := socketClose st.sockets c } c).state := by
  intro e he x hx
  have hrooms : (onDisconnect { st with sockets := socketClose st.sockets c } c).state.callRooms
      = _ := sweepRooms_fst c st.callRooms
  rw [hrooms] at he
  simp only [List.mem_filter, List.mem_map] at he
  obtain ⟨⟨e0, he0, rfl⟩, _⟩ := he
  obtain ⟨hx0, hne⟩ := List.mem_filter.mp hx
  have hopen := h e0 he0 x hx0
  simp only [Server.openIds, List.mem_map] at hopen ⊢
  obtain ⟨conn, hconn, hid⟩ := hopen
  refine ⟨conn, ?_, hid⟩
  show conn ∈ socketClose st.sockets c
  simp only [socketClose, List.mem_filter]
  refine ⟨hconn, ?_⟩
  rw [hid]
  simpa using hne

theorem onCallInitiate_state (st : Server) (sock : SockId) (payload : JsVal) :
    (onCallInitiate st sock payload).state = st := by
  unfold onCallInitiate
  split
  · rfl
  · simp only
    split <;> rfl

theorem onCallCancel_state (st : Server) (sock : SockId) (payload : JsVal) :
    (onCallCancel st sock payload).state = st := by
  unfold onCallCancel
  split
  · rfl
  · simp only
    split <;> rfl

theorem noStale_handle (st : Server) (sock : SockId) (ev : Event) (payload : JsVal)
    (h : NoStale st) (hopen : sock ∈ st.openIds) :
    NoStale (handle st sock ev payload).state := by
  cases ev
  · -- setup
    simp only [handle, onSetup]
    split
    · exact h
    · exact noStale_of_subset h (by simp [Server.openIds, Outcome.state, socketJoin_ids])
        (fun e he x hx => ⟨e, he, hx⟩)
  · have hs : (handle st sock Event.joinChat payload).state
        = { st with sockets := socketJoin st.sockets sock payload } :=
      onJoinChat_state st sock payload
    rw [hs]
    exact noStale_of_subset h (by simp [Server.openIds, socketJoin_ids])
      (fun e he x hx => ⟨e, he, hx⟩)
  · show NoStale (onCallInitiate st sock payload).state
    rw [onCallInitiate_state]; exact h
  · simp only [handle, onCallAccept]
    split <;> exact h
  · simp only [handle, onCallReject]
    split <;> exact h
  · show NoStale (onCallCancel st sock payload).state
    rw [onCallCancel_state]; exact h
  · exact noStale_join st sock payload h hopen
  · exact noStale_relay _ _ st sock payload h
  · exact noStale_relay _ _ st sock payload h
  · exact noStale_relay _ _ st sock payload h
  · exact noStale_leave st sock payload h

theorem noStale_step (w w' : World) (a : Action) (h : NoStale w.server)
    (hstep : w.step a = some w') : NoStale w'.server := by
  cases a with
  | connect c =>
    simp only [World.step] at hstep
    split at hstep
    · cases hstep
    · cases hstep
      intro e he x hx
      have := h e he x hx
      simp only [Server.openIds, socketOpen, List.map_append, List.mem_append] at this ⊢
      exact Or.inl this
  | emit c ev payload =>
    simp only [World.step] at hstep
    split at hstep
    · rename_i hopen
      cases hstep
      exact noStale_handle w.server c ev payload h hopen
    · cases hstep
  | disconnect c =>
    simp only [World.step] at hstep
    split at hstep
    · cases hstep
      exact noStale_disconnect w.server c h
    · cases hstep

theorem noStale_run (actions : List Action) :
    ∀ (w w' : World), NoStale w.server → w.run actions = some w' → NoStale w'.server := by
  induction actions with
  | nil =>
    intro w w' h hrun
    simp only [World.run, Option.some.injEq] at hrun
    rw [← hrun]; exact h
  | cons a rest ih =>
    intro w w' h hrun
    simp only [World.run] at hrun
    cases hs : w.step a with
    | none => rw [hs] at hrun; cases hrun
    | some w1 =>
      rw [hs] at hrun
      exact ih w1 w' (noStale_step w w1 a h hs) hrun

/-- C9 (no stale membership): in every state the server reaches from the
empty registry by any sequence of connections, events emitted by connected
sockets (the nine call events, `setup`, `join chat`, with any payload) and
disconnections, connection ids never being given twice, every connection id
stored in a room of the registry is the id of a connected socket. -/
theorem no_stale_membership (actions : List Action) (w : World)
    (hrun : World.init.run actions = some w) :
    ∀ e ∈ w.server.callRooms, ∀ x ∈ e.2, x.2 ∈ w.server.openIds :=
  noStale_run actions World.init w (fun e he => by cases he) hrun

theorem no_stale_membership_witness :
    World.init.run sampleActions = some sampleWorld ∧
    ∀ e ∈ sampleWorld.server.callRooms, ∀ x ∈ e.2, x.2 ∈ sampleWorld.server.openIds :=
  ⟨rfl, no_stale_membership sampleActions sampleWorld rfl⟩

/-! ## Accept and reject -/

theorem handle_reply (st : Server) (m : ClientEmit)
    (hev : m.event = Event.callAccept ∨ m.event = Event.callReject)
    (h : m.payload.isNullish = false) :
    handle st m.sock m.event m.payload = Outcome.returned st [inviteReply m] := by
  rcases hev with hev | hev <;>
    simp [hev, handle, onCallAccept, onCallReject, h, inviteReply]

theorem serveAll_replies (st : Server) (msgs : List ClientEmit)
    (hmsgs : ∀ m ∈ msgs, (m.event = Event.callAccept ∨ m.event = Event.callReject) ∧
      m.payload.isNullish = false) :
    serveAll st msgs = (st, msgs.flatMap (fun m => deliver st.sockets m.sock (inviteReply m))) := by
  induction msgs with
  | nil => rfl
  | cons m rest ih =>
    have hm := hmsgs m (List.mem_cons_self _ _)
    have ih' := ih (fun x hx => hmsgs x (List.mem_cons_of_mem _ hx))
    simp only [serveAll, handle_reply st m hm.1 hm.2, Outcome.state, ih', List.flatMap_cons,
      Outcome.deliveries, Outcome.emits, List.flatMap_nil, List.append_nil]

theorem deliver_personal (sockets : List Conn) (sender a : SockId) (name : JsVal)
    (event : String) (payload : List (String × JsVal))
    (hsub : subscribers sockets name = [a]) (hne : sender ≠ a) :
    deliver sockets sender { target := Target.room name, event := event, payload := payload }
      = [{ dest := a, event := event, payload := payload }] := by
  have : (a != sender) = true := by simpa using fun h => hne h.symm
  rw [deliver_room, hsub]
  simp [List.filter_cons, this]

/-- C11 (per-recipient accept and reject): a `call:accept` or `call:reject`
message returns after exactly one emission, `call:accepted` resp.
`call:rejected` with payload `roomId`, `userId`, addressed to the personal
channel `fromUserId` and to nothing else, and leaves the state (the registry
included) as it was; so does any sequence of such messages, whose deliveries
are those of the one emission of each message, in order.  Hence, when the
socket `a` of the initiator `A` is the one socket on the channel `A`, and `C`
rejects on another socket `c`, then `B` accepts on another socket `b`, the
deliveries are exactly one `call:rejected` with `userId` `C` and one
`call:accepted` with `userId` `B`, both to `a`: nothing is delivered about
any other recipient. -/
theorem accept_reject_unicast (st : Server) :
    (∀ (sock : SockId) (payload : JsVal), payload.isNullish = false →
      onCallAccept st sock payload = Outcome.returned st
          [{ target := Target.room (payload.getProp "fromUserId"), event := "call:accepted",
             payload := [("roomId", payload.getProp "roomId"),
                         ("userId", payload.getProp "userId")] }] ∧
      onCallReject st sock payload = Outcome.returned st
          [{ target := Target.room (payload.getProp "fromUserId"), event := "call:rejected",
             payload := [("roomId", payload.getProp "roomId"),
                         ("userId", payload.getProp "userId")] }]) ∧
    (∀ msgs : List ClientEmit,
      (∀ m ∈ msgs, (m.event = Event.callAccept ∨ m.event = Event.callReject) ∧
        m.payload.isNullish = false) →
      serveAll st msgs
        = (st, msgs.flatMap (fun m => deliver st.sockets m.sock (inviteReply m)))) ∧
    (∀ (a b c : SockId) (R A B C : JsVal) (n1 n2 : Nat),
      subscribers st.sockets A = [a] → b ≠ a → c ≠ a →
      serveAll st
          [{ sock := c, event := Event.callReject, payload := replyMsg n1 R A C },
           { sock := b, event := Event.callAccept, payload := replyMsg n2 R A B }]
        = (st, [{ dest := a, event := "call:rejected",
                  payload := [("roomId", R), ("userId", C)] },
                { dest := a, event := "call:accepted",
                  payload := [("roomId", R), ("userId", B)] }])) := by
  refine ⟨?_, serveAll_replies st, ?_⟩
  · intro sock payload h
    constructor
    · simp [onCallAccept, h]
    · simp [onCallReject, h]
  · intro a b c R A B C n1 n2 hsub hb hc
    rw [serveAll_replies st _ (by
      intro m hm
      simp only [List.mem_cons, List.mem_singleton, List.not_mem_nil, or_false] at hm
      rcases hm with rfl | rfl
      · exact ⟨Or.inr rfl, rfl⟩
      · exact ⟨Or.inl rfl, rfl⟩)]
    have h1 : inviteReply { sock := c, event := Event.callReject, payload := replyMsg n1 R A C }
        = { target := Target.room A, event := "call:rejected",
            payload := [("roomId", R), ("userId", C)] } := rfl
    have h2 : inviteReply { sock := b, event := Event.callAccept, payload := replyMsg n2 R A B }
        = { target := Target.room A, event := "call:accepted",
            payload := [("roomId", R), ("userId", B)] } := rfl
    simp only [List.flatMap_cons, List.flatMap_nil, List.append_nil, h1, h2,
      deliver_personal st.sockets c a A _ _ hsub hc,
      deliver_personal st.sockets b a A _ _ hsub hb]
    rfl

theorem accept_reject_unicast_witness :
    (World.init.run ringingActions).map World.server = some ringingServer ∧
    ((onCallInitiate ringingServer "a"
        (initiateMsg 5 (JsVal.str "R1") (userObj 1 (JsVal.str "A") (JsVal.str "Alice"))
          (JsVal.arr 6 [JsVal.str "B", JsVal.str "C", JsVal.str "D"])
          (JsVal.bool true))).deliveries "a").map (fun d => (d.dest, d.event))
      = [("b", "call:incoming"), ("c", "call:incoming"), ("d", "call:incoming")] ∧
    serveAll ringingServer
        [{ sock := "c", event := Event.callReject,
           payload := replyMsg 7 (JsVal.str "R1") (JsVal.str "A") (JsVal.str "C") },
         { sock := "b", event := Event.callAccept,
           payload := replyMsg 8 (JsVal.str "R1") (JsVal.str "A") (JsVal.str "B") }]
      = (ringingServer,
         [{ dest := "a", event := "call:rejected",
            payload := [("roomId", JsVal.str "R1"), ("userId", JsVal.str "C")] },
          { dest := "a", event := "call:accepted",
            payload := [("roomId", JsVal.str "R1"), ("userId", JsVal.str "B")] }]) :=
  ⟨rfl, rfl,
   (accept_reject_unicast ringingServer).2.2 "a" "b" "c" (JsVal.str "R1") (JsVal.str "A")
     (JsVal.str "B") (JsVal.str "C") 7 8 rfl (by decide) (by decide)⟩

/-! ## The two-party call -/

theorem JsMap.get?_eq_none_iff {β : Type} (m : JsMap β) (k : JsVal) :
    JsMap.get? m k = none ↔ ∀ e ∈ m, JsVal.sameValueZero e.1 k = false := by
  induction m with
  | nil => simp [JsMap.get?]
  | cons e rest ih =>
    obtain ⟨a, v⟩ := e
    by_cases h : JsVal.sameValueZero a k = true
    · simp [JsMap.get?, h]
    · simp [JsMap.get?, h, ih]

theorem JsMap.get?_append_last {β : Type} (m : JsMap β) (k : JsVal) (v : β)
    (h : ∀ e ∈ m, JsVal.sameValueZero e.1 k = false) :
    JsMap.get? (m ++ [(k, v)]) k = some v := by
  induction m with
  | nil => simp [JsMap.get?, JsVal.sameValueZero_refl]
  | cons e rest ih =>
    obtain ⟨a, w⟩ := e
    have ha : JsVal.sameValueZero a k = false := h (a, w) (List.mem_cons_self _ _)
    simp [JsMap.get?, ha, ih (fun e he => h e (List.mem_cons_of_mem _ he))]

theorem JsMap.set_append_last {β : Type} (m : JsMap β) (k : JsVal) (v w : β)
    (h : ∀ e ∈ m, JsVal.sameValueZero e.1 k = false) :
    JsMap.set (m ++ [(k, v)]) k w = m ++ [(k, w)] := by
  induction m with
  | nil => simp [JsMap.set, JsVal.sameValueZero_refl]
  | cons e rest ih =>
    obtain ⟨a, x⟩ := e
    have ha : JsVal.sameValueZero a k = false := h (a, x) (List.mem_cons_self _ _)
    simp [JsMap.set, ha, ih (fun e he => h e (List.mem_cons_of_mem _ he))]

theorem JsMap.delete_append_last {β : Type} (m : JsMap β) (k : JsVal) (v : β)
    (h : ∀ e ∈ m, JsVal.sameValueZero e.1 k = false) :
    JsMap.delete (m ++ [(k, v)]) k = m := by
  simp only [JsMap.delete, List.filter_append, List.filter_cons, JsVal.sameValueZero_refl,
    Bool.not_true, Bool.false_eq_true, if_false, List.filter_nil, List.append_nil]
  rw [List.filter_eq_self]
  intro e he
  simp [h e he]

/-- The state a `call:join` leaves when the room is the last entry of the
registry and no other entry has its key (an absent room included, as the
empty room nowhere). -/
theorem onCallJoin_last (base : Registry) (sockets : List Conn) (sock : SockId)
    (payload : JsVal) (room : CallRoom) (h : payload.isNullish = false)
    (hbase : ∀ e ∈ base, JsVal.sameValueZero e.1 (payload.getProp "roomId") = false) :
    (onCallJoin { callRooms := base ++ [(payload.getProp "roomId", room)], sockets := sockets }
        sock payload).state
      = { callRooms := base ++ [(payload.getProp "roomId",
            room.set (payload.getProp "userId") sock)],
          sockets := socketJoin sockets sock (payload.getProp "roomId") } := by
  rw [onCallJoin_eq _ _ _ h]
  have hget := JsMap.get?_append_last base _ room hbase
  simp only [Outcome.state, JsMap.has, hget, Option.isSome_some, Bool.not_true,
    Bool.false_eq_true, if_false, roomOrNew, Option.getD_some,
    JsMap.set_append_last base _ _ _ hbase]

theorem onCallJoin_absent (st : Server) (sock : SockId) (payload : JsVal)
    (h : payload.isNullish = false)
    (habsent : st.callRooms.get? (payload.getProp "roomId") = none) :
    (onCallJoin st sock payload).state
      = { callRooms := st.callRooms ++ [(payload.getProp "roomId",
            [(payload.getProp "userId", sock)])],
          sockets := socketJoin st.sockets sock (payload.getProp "roomId") } := by
  have hbase := (JsMap.get?_eq_none_iff _ _).mp habsent
  rw [onCallJoin_eq _ _ _ h]
  simp only [Outcome.state, JsMap.has, habsent, Option.isSome_none, Bool.not_false, if_true,
    roomOrNew, Option.getD_none, JsMap.set_of_absent _ _ _ hbase,
    JsMap.set_append_last _ _ _ _ hbase]
  rfl

theorem any_room_congr (rooms : List JsVal) {n n' : JsVal}
    (h : JsVal.sameValueZero n n' = true) :
    rooms.any (fun x => JsVal.sameValueZero x n) = rooms.any (fun x => JsVal.sameValueZero x n') := by
  induction rooms with
  | nil => rfl
  | cons r rest ih => simp only [List.any_cons, ih, JsVal.sameValueZero_congr_right h r]

theorem subscribers_congr (sockets : List Conn) {n n' : JsVal}
    (h : JsVal.sameValueZero n n' = true) : subscribers sockets n = subscribers sockets n' := by
  simp only [subscribers, any_room_congr _ h]

theorem addRoom_any_iff (rooms : List JsVal) (r name : JsVal) :
    (addRoom rooms r).any (fun x => JsVal.sameValueZero x name) = true ↔
      rooms.any (fun x => JsVal.sameValueZero x name) = true ∨
        JsVal.sameValueZero r name = true := by
  unfold addRoom
  split
  · rename_i hr
    constructor
    · exact Or.inl
    · rintro (h | h)
      · exact h
      · rw [← any_room_congr rooms h]; exact hr
  · simp [List.any_append]

theorem mem_subscribers_socketJoin (sockets : List Conn) (c : SockId) (r name : JsVal)
    (i : SockId) :
    i ∈ subscribers (socketJoin sockets c r) name ↔
      i ∈ subscribers sockets name ∨
        (i = c ∧ c ∈ sockets.map Conn.id ∧ JsVal.sameValueZero r name = true) := by
  simp only [mem_subscribers, socketJoin, List.mem_map]
  constructor
  · rintro ⟨x, ⟨y, hy, rfl⟩, hid, hr⟩
    by_cases hc : y.id = c
    · simp only [hc, if_true] at hid hr
      rcases (addRoom_any_iff _ _ _).mp hr with hr | hr
      · exact Or.inl ⟨y, hy, hc.trans hid, hr⟩
      · exact Or.inr ⟨hid.symm, ⟨y, hy, hc⟩, hr⟩
    · simp only [hc, if_false] at hid hr
      exact Or.inl ⟨y, hy, hid, hr⟩
  · rintro (⟨y, hy, hid, hr⟩ | ⟨rfl, ⟨y, hy, hid⟩, hr⟩)
    · refine ⟨_, ⟨y, hy, rfl⟩, ?_, ?_⟩
      · split <;> exact hid
      · split
        · exact (addRoom_any_iff _ _ _).mpr (Or.inl hr)
        · exact hr
    · refine ⟨_, ⟨y, hy, rfl⟩, ?_, ?_⟩
      · simp [hid]
      · simp only [hid, if_true]
        exact (addRoom_any_iff _ _ _).mpr (Or.inr hr)

theorem leave_any_iff (rooms : List JsVal) (r name : JsVal) :
    (rooms.filter (fun x => !JsVal.sameValueZero x r)).any
        (fun x => JsVal.sameValueZero x name) = true ↔
      rooms.any (fun x => JsVal.sameValueZero x name) = true ∧
        JsVal.sameValueZero r name = false := by
  simp only [List.any_eq_true, List.mem_filter]
  constructor
  · rintro ⟨x, ⟨hx, hxr⟩, hxn⟩
    refine ⟨⟨x, hx, hxn⟩, ?_⟩
    rw [← JsVal.sameValueZero_congr_right hxn r, JsVal.sameValueZero_symm]
    simpa using hxr
  · rintro ⟨⟨x, hx, hxn⟩, hrn⟩
    refine ⟨x, ⟨hx, ?_⟩, hxn⟩
    rw [JsVal.sameValueZero_congr_left hxn r, JsVal.sameValueZero_symm, hrn]
    rfl

theorem mem_subscribers_socketLeave (sockets : List Conn) (c : SockId) (r name : JsVal)
    (i : SockId) :
    i ∈ subscribers (socketLeave sockets c r) name ↔
      i ∈ subscribers sockets name ∧ (i = c → JsVal.sameValueZero r name = false) := by
  simp only [mem_subscribers, socketLeave, List.mem_map]
  constructor
  · rintro ⟨x, ⟨y, hy, rfl⟩, hid, hr⟩
    by_cases hc : y.id = c
    · simp only [hc, if_true] at hid hr
      obtain ⟨hr1, hr2⟩ := (leave_any_iff _ _ _).mp hr
      exact ⟨⟨y, hy, hc.trans hid, hr1⟩, fun _ => hr2⟩
    · simp only [hc, if_false] at hid hr
      exact ⟨⟨y, hy, hid, hr⟩, fun h => absurd (hid.trans h) hc⟩
  · rintro ⟨⟨y, hy, hid, hr⟩, himp⟩
    refine ⟨_, ⟨y, hy, rfl⟩, ?_, ?_⟩
    · split <;> exact hid
    · split
      · rename_i hc
        exact (leave_any_iff _ _ _).mpr ⟨hr, himp (hid.symm.trans hc)⟩
      · exact hr

theorem mem_subscribers_socketClose (sockets : List Conn) (c : SockId) (name : JsVal)
    (i : SockId) :
    i ∈ subscribers (socketClose sockets c) name ↔ i ∈ subscribers sockets name ∧ i ≠ c := by
  simp only [mem_subscribers, socketClose, List.mem_filter]
  constructor
  · rintro ⟨x, ⟨hx, hne⟩, hid, hr⟩
    exact ⟨⟨x, hx, hid, hr⟩, by rw [← hid]; simpa using hne⟩
  · rintro ⟨⟨x, hx, hid, hr⟩, hne⟩
    exact ⟨x, ⟨hx, by rw [hid]; simpa using hne⟩, hid, hr⟩

theorem mem_openIds_of_subscribers {sockets : List Conn} {name : JsVal} {i : SockId}
    (h : i ∈ subscribers sockets name) : i ∈ sockets.map Conn.id := by
  obtain ⟨x, hx, hid, _⟩ := mem_subscribers.mp h
  exact List.mem_map.mpr ⟨x, hx, hid⟩

theorem filter_eq_singleton {α : Type} [DecidableEq α] (l : List α) (p : α → Bool) (x : α)
    (hnd : l.Nodup) (hx : x ∈ l) (hp : ∀ i ∈ l, p i = true ↔ i = x) : l.filter p = [x] := by
  induction l with
  | nil => cases hx
  | cons y rest ih =>
    have hnd' := List.nodup_cons.mp hnd
    by_cases hy : y = x
    · subst hy
      have hpy : p y = true := (hp y (List.mem_cons_self _ _)).mpr rfl
      have hrest : rest.filter p = [] := by
        rw [List.filter_eq_nil_iff]
        intro i hi hpi
        have := (hp i (List.mem_cons_of_mem _ hi)).mp hpi
        exact hnd'.1 (this ▸ hi)
      simp [List.filter_cons, hpy, hrest]
    · have hpy : ¬ p y = true := fun h => hy ((hp y (List.mem_cons_self _ _)).mp h)
      have hx' : x ∈ rest := by
        rcases List.mem_cons.mp hx with h | h
        · exact absurd h.symm hy
        · exact h
      simp only [List.filter_cons, hpy, if_false]
      exact ih hnd'.2 hx' (fun i hi => hp i (List.mem_cons_of_mem _ hi))

/-- An emission to a room reaches one socket when that socket is the one
subscriber of the room other than the sender. -/
theorem deliver_to_one (sockets : List Conn) (sender x : SockId) (name : JsVal)
    (event : String) (payload : List (String × JsVal))
    (hnd : (sockets.map Conn.id).Nodup)
    (hone : ∀ i, (i ∈ subscribers sockets name ∧ i ≠ sender) ↔ i = x) :
    deliver sockets sender { target := Target.room name, event := event, payload := payload }
      = [{ dest := x, event := event, payload := payload }] := by
  rw [deliver_room, filter_eq_singleton _ _ x ((subscribers_nodup hnd name))
    ((hone x).mpr rfl).1]
  · rfl
  · intro i hi
    rw [← hone i]
    simp [hi]

/-- An emission to a room reaches nobody when the room has no subscriber
other than the sender. -/
theorem deliver_to_none (sockets : List Conn) (sender : SockId) (name : JsVal)
    (event : String) (payload : List (String × JsVal))
    (hnone : ∀ i, i ∈ subscribers sockets name → i = sender) :
    deliver sockets sender { target := Target.room name, event := event, payload := payload }
      = [] := by
  rw [deliver_room, List.map_eq_nil_iff, List.filter_eq_nil_iff]
  intro i hi
  simp [hnone i hi]

theorem onCallJoin_deliveries_split (st : Server) (sock : SockId) (payload : JsVal)
    (h : payload.isNullish = false) :
    (onCallJoin st sock payload).deliveries sock =
      deliver (socketJoin st.sockets sock (payload.getProp "roomId")) sock
        { target := Target.room (payload.getProp "roomId"), event := "call:user-joined",
          payload := [("userId", payload.getProp "userId"), ("name", payload.getProp "name")] }
      ++ [{ dest := sock, event := "call:users-in-room",
            payload := [("users", JsVal.arr 0
              (membersExcept st.callRooms (payload.getProp "roomId")
                (payload.getProp "userId")))] }] := by
  rw [onCallJoin_deliveries st sock payload h, deliver_room]

/-- A join with the payload `{ roomId: R, userId: U, name: N }` when room `R`
is the last entry of the registry and no other entry has its key. -/
theorem join_obj_last (base : Registry) (sockets : List Conn) (sock : SockId) (n : Nat)
    (R U N : JsVal) (room : CallRoom)
    (hbase : ∀ e ∈ base, JsVal.sameValueZero e.1 R = false) :
    (onCallJoin (Server.mk (base ++ [(R, room)]) sockets) sock
        (JsVal.obj n [("roomId", R), ("userId", U), ("name", N)])).state
      = Server.mk (base ++ [(R, room.set U sock)]) (socketJoin sockets sock R) ∧
    (onCallJoin (Server.mk (base ++ [(R, room)]) sockets) sock
        (JsVal.obj n [("roomId", R), ("userId", U), ("name", N)])).deliveries sock
      = deliver (socketJoin sockets sock R) sock
          { target := Target.room R, event := "call:user-joined",
            payload := [("userId", U), ("name", N)] }
        ++ [{ dest := sock, event := "call:users-in-room",
              payload := [("users", JsVal.arr 0
                (room.keys.filter (fun id => !JsVal.strictEq id U)))] }] := by
  refine ⟨onCallJoin_last base sockets sock _ room rfl hbase, ?_⟩
  rw [onCallJoin_deliveries_split _ sock
    (JsVal.obj n [("roomId", R), ("userId", U), ("name", N)]) rfl]
  have hget : JsMap.get? (base ++ [(R, room)]) R = some room :=
    JsMap.get?_append_last _ _ _ hbase
  have hmem : membersExcept (base ++ [(R, room)]) R U
      = room.keys.filter (fun id => !JsVal.strictEq id U) := by
    simp [membersExcept, roomOrNew, hget]
  exact congrArg _ (by rw [← hmem]; rfl)

/-- A join with the payload `{ roomId: R, userId: U, name: N }` when room `R`
is not in the registry. -/
theorem join_obj_absent (st : Server) (sock : SockId) (n : Nat) (R U N : JsVal)
    (hR : st.callRooms.get? R = none) :
    (onCallJoin st sock (JsVal.obj n [("roomId", R), ("userId", U), ("name", N)])).state
      = Server.mk (st.callRooms ++ [(R, [(U, sock)])]) (socketJoin st.sockets sock R) ∧
    (onCallJoin st sock
        (JsVal.obj n [("roomId", R), ("userId", U), ("name", N)])).deliveries sock
      = deliver (socketJoin st.sockets sock R) sock
          { target := Target.room R, event := "call:user-joined",
            payload := [("userId", U), ("name", N)] }
        ++ [{ dest := sock, event := "call:users-in-room",
              payload := [("users", JsVal.arr 0 [])] }] := by
  refine ⟨onCallJoin_absent st sock _ rfl hR, ?_⟩
  rw [onCallJoin_deliveries_split st sock
    (JsVal.obj n [("roomId", R), ("userId", U), ("name", N)]) rfl]
  have hmem : membersExcept st.callRooms R U = [] := by
    simp [membersExcept, roomOrNew, hR, JsMap.keys]
  exact congrArg _ (by rw [← hmem]; rfl)

/-- A relay with the payload `{ roomId: R, fromUserId: F, toUserId: T, <field>: body }`
when room `R` is the last entry of the registry and binds `T` to the socket
`t`. -/
theorem relay_obj_last (event field : String) (base : Registry) (sockets : List Conn)
    (sock t : SockId) (n : Nat) (R F T body : JsVal) (room : CallRoom)
    (hfield : (field == "roomId") = false ∧ (field == "fromUserId") = false ∧
      (field == "toUserId") = false)
    (hbase : ∀ e ∈ base, JsVal.sameValueZero e.1 R = false)
    (ht : room.get? T = some t) (hne : t ≠ "") :
    relay event field (Server.mk (base ++ [(R, room)]) sockets) sock
        (JsVal.obj n [("roomId", R), ("fromUserId", F), ("toUserId", T), (field, body)])
      = Outcome.returned (Server.mk (base ++ [(R, room)]) sockets)
          [{ target := Target.room (JsVal.str t), event := event,
             payload := [("fromUserId", F), (field, body)] }] := by
  have hget : JsMap.get? (base ++ [(R, room)]) R = some room :=
    JsMap.get?_append_last _ _ _ hbase
  have hb : (JsVal.obj n [("roomId", R), ("fromUserId", F), ("toUserId", T),
      (field, body)]).getProp field = body := by
    simp [JsVal.getProp, List.lookup, hfield.1, hfield.2.1, hfield.2.2]
  rw [relay_of_target event field _ sock t
    (JsVal.obj n [("roomId", R), ("fromUserId", F), ("toUserId", T), (field, body)])
    room rfl hget ht hne, hb]
  rfl

/-- A leave with the payload `{ roomId: R, userId: U }` when room `R` is the
last entry of the registry and keeps members. -/
theorem leave_obj_last (base : Registry) (sockets : List Conn) (sock : SockId) (n : Nat)
    (R U : JsVal) (room : CallRoom)
    (hbase : ∀ e ∈ base, JsVal.sameValueZero e.1 R = false) (hkeep : room.delete U ≠ []) :
    onCallLeave (Server.mk (base ++ [(R, room)]) sockets) sock
        (JsVal.obj n [("roomId", R), ("userId", U)])
      = Outcome.returned (Server.mk (base ++ [(R, room.delete U)]) (socketLeave sockets sock R))
          [{ target := Target.room R, event := "call:user-left",
             payload := [("userId", U)] }] := by
  have hget : JsMap.get? (base ++ [(R, room)]) R = some room :=
    JsMap.get?_append_last _ _ _ hbase
  rw [onCallLeave_eq _ sock (JsVal.obj n [("roomId", R), ("userId", U)]) room rfl hget]
  have hsz : ¬ (JsMap.delete room U).size = 0 := fun h0 => hkeep (List.length_eq_zero.mp h0)
  have hU : (JsVal.obj n [("roomId", R), ("userId", U)]).getProp "userId" = U := rfl
  have hRp : (JsVal.obj n [("roomId", R), ("userId", U)]).getProp "roomId" = R := rfl
  simp only [hU, hRp, hsz, if_false, JsMap.set_append_last base R _ _ hbase]

theorem sweepRooms_append (c : SockId) (xs ys : Registry) :
    sweepRooms c (xs ++ ys)
      = ((sweepRooms c xs).1 ++ (sweepRooms c ys).1,
         (sweepRooms c xs).2 ++ (sweepRooms c ys).2) := by
  apply Prod.ext
  · simp only [sweepRooms_fst, List.map_append, List.filter_append]
  · simp only [sweepRooms_snd, List.flatMap_append]

theorem sweepRooms_keys (c : SockId) (rooms : Registry) (R : JsVal)
    (h : ∀ e ∈ rooms, JsVal.sameValueZero e.1 R = false) :
    JsMap.get? (sweepRooms c rooms).1 R = none := by
  rw [JsMap.get?_eq_none_iff, sweepRooms_fst]
  intro e he
  simp only [List.mem_filter, List.mem_map] at he
  obtain ⟨⟨e0, he0, rfl⟩, _⟩ := he
  exact h e0 he0

/-- The disconnect of the socket `b` when room `R`, the last entry of the
registry, holds the one user `B` on `b`. -/
theorem disconnect_last (base : Registry) (sockets : List Conn) (b : SockId) (R B : JsVal)
    (hbase : ∀ e ∈ base, JsVal.sameValueZero e.1 R = false) :
    (onDisconnect (Server.mk (base ++ [(R, [(B, b)])]) sockets) b).state.callRooms.get? R
      = none ∧
    (onDisconnect (Server.mk (base ++ [(R, [(B, b)])]) sockets) b).emits
      = (sweepRooms b base).2
        ++ [{ target := Target.room R, event := "call:user-left",
              payload := [("userId", B)] }] := by
  have hlast : sweepRooms b [(R, [(B, b)])]
      = ([], [{ target := Target.room R, event := "call:user-left",
                payload := [("userId", B)] }]) := by
    simp [sweepRooms, sweepRoom, JsMap.size]
  constructor
  · show JsMap.get? (sweepRooms b (base ++ [(R, [(B, b)])])).1 R = none
    rw [sweepRooms_append, hlast]
    simpa using sweepRooms_keys b base R hbase
  · show (sweepRooms b (base ++ [(R, [(B, b)])])).2 = _
    rw [sweepRooms_append, hlast]

/-- The two-party call up to the leave, from a state in which room `R` is not
in the registry, nobody has joined the broadcast room `R`, and the sockets `a`
and `b` are each the one subscriber of the room named by their id: the state
it ends in and the deliveries of each step. -/
theorem twoPartyCall_trace (st : Server) (a b : SockId)
    (R A B nameA nameB offer answer : JsVal)
    (hR : st.callRooms.get? R = none) (hAB : JsVal.sameValueZero A B = false) (hab : a ≠ b)
    (hna : a ≠ "") (hnb : b ≠ "") (hnd : (st.sockets.map Conn.id).Nodup)
    (hsubR : subscribers st.sockets R = [])
    (hsuba : subscribers st.sockets (JsVal.str a) = [a])
    (hsubb : subscribers st.sockets (JsVal.str b) = [b]) :
    Server.trace st (twoPartyCall a b R A B nameA nameB offer answer)
      = (Server.mk (st.callRooms ++ [(R, [(B, b)])])
           (socketLeave (socketJoin (socketJoin st.sockets a R) b R) a R),
         [[{ dest := a, event := "call:users-in-room", payload := [("users", JsVal.arr 0 [])] }],
          [{ dest := a, event := "call:user-joined",
             payload := [("userId", B), ("name", nameB)] },
           { dest := b, event := "call:users-in-room",
             payload := [("users", JsVal.arr 0 [A])] }],
          [{ dest := a, event := "call:offer",
             payload := [("fromUserId", B), ("offer", offer)] }],
          [{ dest := b, event := "call:answer",
             payload := [("fromUserId", A), ("answer", answer)] }],
          [{ dest := b, event := "call:user-left", payload := [("userId", A)] }]]) := by
  have hbase := (JsMap.get?_eq_none_iff _ _).mp hR
  have hBA : JsVal.sameValueZero B A = false := by rw [JsVal.sameValueZero_symm]; exact hAB
  have ha : a ∈ st.sockets.map Conn.id :=
    @mem_openIds_of_subscribers st.sockets (JsVal.str a) a (by rw [hsuba]; simp)
  have hb : b ∈ st.sockets.map Conn.id :=
    @mem_openIds_of_subscribers st.sockets (JsVal.str b) b (by rw [hsubb]; simp)
  have hRa : JsVal.sameValueZero R (JsVal.str a) = false := by
    cases h : JsVal.sameValueZero R (JsVal.str a) with
    | false => rfl
    | true => rw [subscribers_congr _ h, hsuba] at hsubR; cases hsubR
  have hRb : JsVal.sameValueZero R (JsVal.str b) = false := by
    cases h : JsVal.sameValueZero R (JsVal.str b) with
    | false => rfl
    | true => rw [subscribers_congr _ h, hsubb] at hsubR; cases hsubR
  have hnoR : ∀ i, ¬ i ∈ subscribers st.sockets R := by
    intro i hi; rw [hsubR] at hi; cases hi
  have hia : ∀ i, i ∈ subscribers st.sockets (JsVal.str a) ↔ i = a := by
    intro i; rw [hsuba]; simp
  have hib : ∀ i, i ∈ subscribers st.sockets (JsVal.str b) ↔ i = b := by
    intro i; rw [hsubb]; simp
  have hnd1 : ((socketJoin st.sockets a R).map Conn.id).Nodup := by
    rw [socketJoin_ids]; exact hnd
  have hnd2 : ((socketJoin (socketJoin st.sockets a R) b R).map Conn.id).Nodup := by
    rw [socketJoin_ids]; exact hnd1
  have hnd5 : ((socketLeave (socketJoin (socketJoin st.sockets a R) b R) a R).map
      Conn.id).Nodup := by
    rw [socketLeave_ids]; exact hnd2
  have hb1 : b ∈ (socketJoin st.sockets a R).map Conn.id := by rw [socketJoin_ids]; exact hb
  have hRR : JsVal.sameValueZero R R = true := JsVal.sameValueZero_refl R
  -- who has joined the broadcast room `R` after the two joins
  have hsub2 : ∀ i, i ∈ subscribers (socketJoin (socketJoin st.sockets a R) b R) R ↔
      i = a ∨ i = b := by
    intro i
    rw [mem_subscribers_socketJoin, mem_subscribers_socketJoin]
    constructor
    · rintro ((h | h) | h)
      · exact absurd h (hnoR i)
      · exact Or.inl h.1
      · exact Or.inr h.1
    · rintro (rfl | rfl)
      · exact Or.inl (Or.inr ⟨rfl, ha, hRR⟩)
      · exact Or.inr ⟨rfl, hb1, hRR⟩
  -- and the rooms named by the socket ids
  have hsuba2 : ∀ i, i ∈ subscribers (socketJoin (socketJoin st.sockets a R) b R)
      (JsVal.str a) ↔ i = a := by
    intro i
    rw [mem_subscribers_socketJoin, mem_subscribers_socketJoin, hRa, hia]
    simp
  have hsubb2 : ∀ i, i ∈ subscribers (socketJoin (socketJoin st.sockets a R) b R)
      (JsVal.str b) ↔ i = b := by
    intro i
    rw [mem_subscribers_socketJoin, mem_subscribers_socketJoin, hRb, hib]
    simp
  -- step 1: A joins
  obtain ⟨s1, d1⟩ := join_obj_absent st a 1 R A nameA hR
  rw [deliver_to_none _ _ _ _ _ (by
    intro i hi
    rcases (mem_subscribers_socketJoin _ _ _ _ _).mp hi with h | h
    · exact absurd h (hnoR i)
    · exact h.1)] at d1
  -- step 2: B joins
  obtain ⟨s2, d2⟩ := join_obj_last st.callRooms (socketJoin st.sockets a R) b 2 R B nameB
    [(A, a)] hbase
  rw [deliver_to_one _ _ a _ _ _ hnd2 (by
    intro i
    rw [hsub2]
    constructor
    · rintro ⟨h | h, hne⟩
      · exact h
      · exact absurd h hne
    · rintro rfl
      exact ⟨Or.inl rfl, hab⟩)] at d2
  have hset : JsMap.set [(A, a)] B b = [(A, a), (B, b)] := by
    simp [JsMap.set, hAB]
  have hkeys : (JsMap.keys [(A, a)]).filter (fun id => !JsVal.strictEq id B) = [A] := by
    simp [JsMap.keys, JsVal.strictEq, hAB]
  rw [hset] at s2
  rw [hkeys] at d2
  -- step 3: B offers to A
  have s3 := relay_obj_last "call:offer" "offer" st.callRooms
    (socketJoin (socketJoin st.sockets a R) b R) b a 3 R B A offer [(A, a), (B, b)]
    ⟨rfl, rfl, rfl⟩ hbase (by simp [JsMap.get?, JsVal.sameValueZero_refl]) hna
  have d3 := deliver_to_one (socketJoin (socketJoin st.sockets a R) b R) b a (JsVal.str a)
    "call:offer" [("fromUserId", B), ("offer", offer)] hnd2 (by
      intro i
      rw [hsuba2]
      exact ⟨fun h => h.1, fun h => ⟨h, h ▸ hab⟩⟩)
  -- step 4: A answers B
  have s4 := relay_obj_last "call:answer" "answer" st.callRooms
    (socketJoin (socketJoin st.sockets a R) b R) a b 4 R A B answer [(A, a), (B, b)]
    ⟨rfl, rfl, rfl⟩ hbase (by simp [JsMap.get?, JsVal.sameValueZero_refl, hAB]) hnb
  have d4 := deliver_to_one (socketJoin (socketJoin st.sockets a R) b R) a b (JsVal.str b)
    "call:answer" [("fromUserId", A), ("answer", answer)] hnd2 (by
      intro i
      rw [hsubb2]
      exact ⟨fun h => h.1, fun h => ⟨h, h ▸ hab.symm⟩⟩)
  -- step 5: A leaves
  have hdel : JsMap.delete [(A, a), (B, b)] A = [(B, b)] := by
    simp [JsMap.delete, List.filter_cons, JsVal.sameValueZero_refl, hBA]
  have s5 := leave_obj_last st.callRooms (socketJoin (socketJoin st.sockets a R) b R) a 5 R A
    [(A, a), (B, b)] hbase (by rw [hdel]; exact List.cons_ne_nil _ _)
  rw [hdel] at s5
  have d5 := deliver_to_one (socketLeave (socketJoin (socketJoin st.sockets a R) b R) a R) a b
    R "call:user-left" [("userId", A)] hnd5 (by
      intro i
      rw [mem_subscribers_socketLeave, hsub2]
      constructor
      · rintro ⟨⟨h | h, _⟩, hne⟩
        · exact absurd h hne
        · exact h
      · rintro rfl
        exact ⟨⟨Or.inr rfl, fun h => absurd h.symm hab⟩, fun h => hab h.symm⟩)
  -- the trace
  simp only [List.nil_append, List.singleton_append] at d1 d2
  simp only [twoPartyCall, Server.trace, Server.act, Action.socket, handle, onCallOffer,
    onCallAnswer]
  rw [d1, s1, d2, s2, s3]
  simp only [Outcome.state, Outcome.deliveries, Outcome.emits, List.flatMap_cons,
    List.flatMap_nil, List.append_nil]
  rw [d3, s4]
  simp only [Outcome.state, Outcome.deliveries, Outcome.emits, List.flatMap_cons,
    List.flatMap_nil, List.append_nil]
  rw [d4, s5]
  simp only [Outcome.state, Outcome.deliveries, Outcome.emits, List.flatMap_cons,
    List.flatMap_nil, List.append_nil]
  rw [d5]

/-- C12 (two-party call), as the code has it.  From a state in which room `R`
is not in the registry, no connected socket has joined the broadcast room
`R`, the connected sockets have distinct ids, and the sockets `a` and `b`
(different, with non-empty ids) are each the one subscriber of the room named
by their id, the sequence in which `A` joins `R` on `a`, `B` (another user)
joins on `b`, `B` offers to `A`, `A` answers and `A` leaves produces exactly
these deliveries, step by step: the empty roster to `a`; `call:user-joined`
of `B` to `a`, then the roster with `A` to `b`; the offer from `B` to `a`; the
answer from `A` to `b`; `call:user-left` of `A` to `b`.  Room `R` then holds
exactly `B` on `b`.  When `b` then disconnects, `R` is no more in the
registry; the handler emits `call:user-left` for the entries of `b` in other
rooms and, last, for `B` in `R`, which is delivered to nobody. -/
theorem two_party_call (st : Server) (a b : SockId) (R A B nameA nameB offer answer : JsVal)
    (hR : st.callRooms.get? R = none) (hAB : JsVal.sameValueZero A B = false) (hab : a ≠ b)
    (hna : a ≠ "") (hnb : b ≠ "") (hnd : (st.sockets.map Conn.id).Nodup)
    (hsubR : subscribers st.sockets R = [])
    (hsuba : subscribers st.sockets (JsVal.str a) = [a])
    (hsubb : subscribers st.sockets (JsVal.str b) = [b]) :
    (Server.trace st (twoPartyCall a b R A B nameA nameB offer answer)).2
      = [[{ dest := a, event := "call:users-in-room", payload := [("users", JsVal.arr 0 [])] }],
         [{ dest := a, event := "call:user-joined",
            payload := [("userId", B), ("name", nameB)] },
          { dest := b, event := "call:users-in-room",
            payload := [("users", JsVal.arr 0 [A])] }],
         [{ dest := a, event := "call:offer",
            payload := [("fromUserId", B), ("offer", offer)] }],
         [{ dest := b, event := "call:answer",
            payload := [("fromUserId", A), ("answer", answer)] }],
         [{ dest := b, event := "call:user-left", payload := [("userId", A)] }]] ∧
    (Server.trace st (twoPartyCall a b R A B nameA nameB offer answer)).1.callRooms.get? R
      = some [(B, b)] ∧
    ((Server.trace st (twoPartyCall a b R A B nameA nameB offer answer)).1.act
        (Action.disconnect b)).state.callRooms.get? R = none ∧
    ((Server.trace st (twoPartyCall a b R A B nameA nameB offer answer)).1.act
        (Action.disconnect b)).emits
      = (sweepRooms b st.callRooms).2
        ++ [{ target := Target.room R, event := "call:user-left",
              payload := [("userId", B)] }] ∧
    deliver ((Server.trace st (twoPartyCall a b R A B nameA nameB offer answer)).1.act
        (Action.disconnect b)).state.sockets b
        { target := Target.room R, event := "call:user-left", payload := [("userId", B)] }
      = [] := by
  have hbase := (JsMap.get?_eq_none_iff _ _).mp hR
  rw [twoPartyCall_trace st a b R A B nameA nameB offer answer hR hAB hab hna hnb hnd hsubR
    hsuba hsubb]
  have hdis := disconnect_last st.callRooms
    (socketClose (socketLeave (socketJoin (socketJoin st.sockets a R) b R) a R) b) b R B hbase
  refine ⟨rfl, JsMap.get?_append_last _ _ _ hbase, hdis.1, hdis.2, ?_⟩
  apply deliver_to_none
  intro i hi
  have hi' : i ∈ subscribers
      (socketClose (socketLeave (socketJoin (socketJoin st.sockets a R) b R) a R) b) R := hi
  rw [mem_subscribers_socketClose, mem_subscribers_socketLeave, mem_subscribers_socketJoin,
    mem_subscribers_socketJoin, hsubR] at hi'
  obtain ⟨⟨h, hleft⟩, hne⟩ := hi'
  rcases h with (h | h) | h
  · cases h
  · have := hleft h.1
    rw [JsVal.sameValueZero_refl] at this
    cases this
  · exact absurd h.1 hne

theorem two_party_call_witness :
    (Server.trace freshServer
        (twoPartyCall "c1" "c2" (JsVal.str "R1") (JsVal.str "A") (JsVal.str "B")
          (JsVal.str "Alice") (JsVal.str "Bob") (JsVal.str "sdp1") (JsVal.str "sdp2"))).2
      = [[{ dest := "c1", event := "call:users-in-room",
            payload := [("users", JsVal.arr 0 [])] }],
         [{ dest := "c1", event := "call:user-joined",
            payload := [("userId", JsVal.str "B"), ("name", JsVal.str "Bob")] },
          { dest := "c2", event := "call:users-in-room",
            payload := [("users", JsVal.arr 0 [JsVal.str "A"])] }],
         [{ dest := "c1", event := "call:offer",
            payload := [("fromUserId", JsVal.str "B"), ("offer", JsVal.str "sdp1")] }],
         [{ dest := "c2", event := "call:answer",
            payload := [("fromUserId", JsVal.str "A"), ("answer", JsVal.str "sdp2")] }],
         [{ dest := "c2", event := "call:user-left",
            payload := [("userId", JsVal.str "A")] }]] :=
  (two_party_call freshServer "c1" "c2" (JsVal.str "R1") (JsVal.str "A") (JsVal.str "B")
    (JsVal.str "Alice") (JsVal.str "Bob") (JsVal.str "sdp1") (JsVal.str "sdp2")
    rfl rfl (by decide) (by decide) (by decide) (by decide) rfl rfl rfl).1

/-- C12 as stated fails: room `R1` being absent from the registry does not
fix who has joined the broadcast rooms.  Once `c3` has joined the broadcast
room `R1` (by `join chat`), the two-party call of `A` on `c1` and `B` on `c2`
in room `R1` also delivers both `call:user-joined` and the `call:user-left`
to `c3`. -/
theorem two_party_call_overheard :
    (onJoinChat freshServer "c3" (JsVal.str "R1")).state.callRooms.get? (JsVal.str "R1")
      = none ∧
    (Server.trace (onJoinChat freshServer "c3" (JsVal.str "R1")).state
        (twoPartyCall "c1" "c2" (JsVal.str "R1") (JsVal.str "A") (JsVal.str "B")
          (JsVal.str "Alice") (JsVal.str "Bob") (JsVal.str "sdp1") (JsVal.str "sdp2"))).2.map
        (fun ds => ds.map (fun d => (d.dest, d.event)))
      = [[("c3", "call:user-joined"), ("c1", "call:users-in-room")],
         [("c1", "call:user-joined"), ("c3", "call:user-joined"),
          ("c2", "call:users-in-room")],
         [("c1", "call:offer")],
         [("c2", "call:answer")],
         [("c2", "call:user-left"), ("c3", "call:user-left")]] := by
  refine ⟨rfl, by decide⟩

/-! ## Members and subscribers -/

theorem JsMap.mem_set_WF {β : Type} (m : JsMap β) (k : JsVal) (v : β) (hwf : JsMap.WF m)
    {e : JsVal × β} (he : e ∈ JsMap.set m k v) :
    (e ∈ m ∧ JsVal.sameValueZero e.1 k = false) ∨
      (e.2 = v ∧ JsVal.sameValueZero e.1 k = true) := by
  induction m with
  | nil =>
    simp only [JsMap.set, List.mem_singleton] at he
    rw [he]
    exact Or.inr ⟨rfl, JsVal.sameValueZero_refl k⟩
  | cons x rest ih =>
    obtain ⟨a, w⟩ := x
    have hp := List.pairwise_cons.mp hwf
    by_cases hk : JsVal.sameValueZero a k = true
    · simp only [JsMap.set, hk, if_true, List.mem_cons] at he
      rcases he with rfl | he
      · exact Or.inr ⟨rfl, hk⟩
      · refine Or.inl ⟨List.mem_cons_of_mem _ he, ?_⟩
        rw [← JsVal.sameValueZero_congr_right hk e.1, JsVal.sameValueZero_symm]
        exact hp.1 e he
    · simp only [JsMap.set, hk, Bool.false_eq_true, if_false, List.mem_cons] at he
      rcases he with rfl | he
      · exact Or.inl ⟨List.mem_cons_self _ _, by simpa using hk⟩
      · rcases ih hp.2 he with h | h
        · exact Or.inl ⟨List.mem_cons_of_mem _ h.1, h.2⟩
        · exact Or.inr h

theorem JsMap.mem_of_get?_WF {β : Type} (m : JsMap β) (k : JsVal) (v : β) (hwf : JsMap.WF m)
    (hget : JsMap.get? m k = some v) {e : JsVal × β} (he : e ∈ m)
    (hk : JsVal.sameValueZero e.1 k = true) : e.2 = v := by
  induction m with
  | nil => cases he
  | cons x rest ih =>
    obtain ⟨a, w⟩ := x
    have hp := List.pairwise_cons.mp hwf
    by_cases ha : JsVal.sameValueZero a k = true
    · simp only [JsMap.get?, ha, if_true, Option.some.injEq] at hget
      rcases List.mem_cons.mp he with rfl | he'
      · exact hget
      · have := hp.1 e he'
        rw [JsVal.sameValueZero_congr_left ha e.1, JsVal.sameValueZero_symm, hk] at this
        cases this
    · simp only [JsMap.get?, ha, Bool.false_eq_true, if_false] at hget
      rcases List.mem_cons.mp he with rfl | he'
      · exact absurd hk ha
      · exact ih hp.2 hget he'

theorem sweepRooms_WF (c : SockId) (rooms : Registry) (hwf : JsMap.WF rooms) :
    JsMap.WF (sweepRooms c rooms).1 := by
  rw [sweepRooms_fst]
  exact List.Pairwise.filter _ (List.Pairwise.map _ (fun _ _ h => h) hwf)

theorem subscribers_socketOpen_mono (sockets : List Conn) (c : SockId) (name : JsVal)
    {i : SockId} (h : i ∈ subscribers sockets name) :
    i ∈ subscribers (socketOpen sockets c) name := by
  obtain ⟨x, hx, hid, hr⟩ := mem_subscribers.mp h
  exact mem_subscribers.mpr ⟨x, by simp [socketOpen, hx], hid, hr⟩

theorem onCallAccept_state (st : Server) (sock : SockId) (payload : JsVal) :
    (onCallAccept st sock payload).state = st := by
  unfold onCallAccept
  split <;> rfl

theorem onCallReject_state (st : Server) (sock : SockId) (payload : JsVal) :
    (onCallReject st sock payload).state = st := by
  unfold onCallReject
  split <;> rfl

theorem subscribed_of_sockets {st st' : Server} (h : MembersSubscribed st)
    (hrooms : st'.callRooms = st.callRooms)
    (hmono : ∀ name i, i ∈ subscribers st.sockets name → i ∈ subscribers st'.sockets name) :
    MembersSubscribed st' := by
  intro e he x hx
  rw [hrooms] at he
  exact hmono _ _ (h e he x hx)

theorem subscribed_join (st : Server) (sock : SockId) (payload : JsVal)
    (hwf : JsMap.WF st.callRooms) (h : MembersSubscribed st) (hopen : sock ∈ st.openIds) :
    JsMap.WF (onCallJoin st sock payload).state.callRooms ∧
      MembersSubscribed (onCallJoin st sock payload).state := by
  cases hn : payload.isNullish with
  | true => simpa [onCallJoin, hn, Outcome.state] using ⟨hwf, h⟩
  | false =>
    rw [onCallJoin_eq st sock payload hn]
    simp only [Outcome.state]
    have hwf1 : JsMap.WF (if !st.callRooms.has (payload.getProp "roomId")
        then st.callRooms.set (payload.getProp "roomId") [] else st.callRooms) := by
      split
      · exact JsMap.WF_set _ _ _ hwf
      · exact hwf
    refine ⟨JsMap.WF_set _ _ _ hwf1, ?_⟩
    intro e he x hx
    simp only at he hx ⊢
    rcases JsMap.mem_set_WF _ _ _ hwf1 he with ⟨he1, _⟩ | ⟨he2, hk⟩
    · -- an entry of the registry as it was
      have hold : e ∈ st.callRooms := by
        split at he1
        · rcases JsMap.val_of_mem_set _ _ _ he1 with h1 | h1
          · exact h1
          · rw [h1] at hx; cases hx
        · exact he1
      exact subscribers_socketJoin_mono _ _ _ _ (h e hold x hx)
    · -- the room that is joined
      rw [he2] at hx
      rw [subscribers_congr _ hk]
      rcases JsMap.val_of_mem_set _ _ _ hx with hx | hx
      · unfold roomOrNew at hx
        cases hg : st.callRooms.get? (payload.getProp "roomId") with
        | none => rw [hg] at hx; cases hx
        | some room =>
          rw [hg] at hx
          obtain ⟨k, hkmem, hkR⟩ := JsMap.get?_mem hg
          have := h (k, room) hkmem x hx
          rw [subscribers_congr _ hkR] at this
          exact subscribers_socketJoin_mono _ _ _ _ this
      · rw [hx]
        exact subscribers_socketJoin_self _ _ _ hopen

theorem subscribed_leave (st : Server) (sock : SockId) (payload : JsVal)
    (hwf : JsMap.WF st.callRooms) (h : MembersSubscribed st)
    (hown : leavesOwn st (Action.emit sock Event.callLeave payload) = true) :
    JsMap.WF (onCallLeave st sock payload).state.callRooms ∧
      MembersSubscribed (onCallLeave st sock payload).state := by
  cases hn : payload.isNullish with
  | true => simpa [onCallLeave, hn, Outcome.state] using ⟨hwf, h⟩
  | false =>
    cases hg : st.callRooms.get? (payload.getProp "roomId") with
    | none => simpa [onCallLeave, hn, hg, Outcome.state] using ⟨hwf, h⟩
    | some room =>
      rw [onCallLeave_eq st sock payload room hn hg]
      simp only [Outcome.state]
      simp only [leavesOwn, hg, List.all_eq_true, Bool.or_eq_true, bne_iff_ne] at hown
      obtain ⟨k, hkmem, hkR⟩ := JsMap.get?_mem hg
      have hset : ∀ e ∈ st.callRooms.set (payload.getProp "roomId")
          (room.delete (payload.getProp "userId")), ∀ x ∈ e.2,
          x.2 ∈ subscribers (socketLeave st.sockets sock (payload.getProp "roomId")) e.1 := by
        intro e he x hx
        rw [mem_subscribers_socketLeave]
        rcases JsMap.mem_set_WF _ _ _ hwf he with ⟨he1, hne⟩ | ⟨he2, hk⟩
        · refine ⟨h e he1 x hx, fun _ => ?_⟩
          rw [JsVal.sameValueZero_symm]; exact hne
        · rw [he2] at hx
          obtain ⟨hxroom, hxU⟩ := List.mem_filter.mp hx
          have hxsock : x.2 ≠ sock := by
            rcases hown x hxroom with h1 | h1
            · exact h1
            · rw [h1] at hxU; cases hxU
          refine ⟨?_, fun hc => absurd hc hxsock⟩
          rw [subscribers_congr _ hk, ← subscribers_congr _ hkR]
          exact h (k, room) hkmem x hxroom
      constructor
      · split
        · exact JsMap.WF_delete _ _ (JsMap.WF_set _ _ _ hwf)
        · exact JsMap.WF_set _ _ _ hwf
      · intro e he x hx
        simp only at he
        split at he
        · exact hset e (List.mem_filter.mp he).1 x hx
        · exact hset e he x hx

theorem subscribed_disconnect (st : Server) (c : SockId)
    (hwf : JsMap.WF st.callRooms) (h : MembersSubscribed st) :
    JsMap.WF (onDisconnect { st with sockets := socketClose st.sockets c } c).state.callRooms ∧
      MembersSubscribed (onDisconnect { st with sockets := socketClose st.sockets c } c).state := by
  refine ⟨sweepRooms_WF c st.callRooms hwf, ?_⟩
  intro e he x hx
  have he' : e ∈ (sweepRooms c st.callRooms).1 := he
  rw [sweepRooms_fst] at he'
  simp only [List.mem_filter, List.mem_map] at he'
  obtain ⟨⟨e0, he0, rfl⟩, _⟩ := he'
  obtain ⟨hx0, hne⟩ := List.mem_filter.mp hx
  show x.2 ∈ subscribers (socketClose st.sockets c) e0.1
  rw [mem_subscribers_socketClose]
  exact ⟨h e0 he0 x hx0, by simpa using hne⟩

theorem subscribed_handle (st : Server) (sock : SockId) (ev : Event) (payload : JsVal)
    (hwf : JsMap.WF st.callRooms) (h : MembersSubscribed st) (hopen : sock ∈ st.openIds)
    (hown : leavesOwn st (Action.emit sock ev payload) = true) :
    JsMap.WF (handle st sock ev payload).state.callRooms ∧
      MembersSubscribed (handle st sock ev payload).state := by
  cases ev
  · -- setup
    simp only [handle, onSetup]
    split
    · exact ⟨hwf, h⟩
    · exact ⟨hwf, subscribed_of_sockets h rfl
        (fun _ _ hi => subscribers_socketJoin_mono _ _ _ _ hi)⟩
  · have hs : (handle st sock Event.joinChat payload).state
        = { st with sockets := socketJoin st.sockets sock payload } :=
      onJoinChat_state st sock payload
    rw [hs]
    exact ⟨hwf, subscribed_of_sockets h rfl
      (fun _ _ hi => subscribers_socketJoin_mono _ _ _ _ hi)⟩
  · have hs : (handle st sock Event.callInitiate payload).state = st := onCallInitiate_state st sock payload
    rw [hs]; exact ⟨hwf, h⟩
  · have hs : (handle st sock Event.callAccept payload).state = st := onCallAccept_state st sock payload
    rw [hs]; exact ⟨hwf, h⟩
  · have hs : (handle st sock Event.callReject payload).state = st := onCallReject_state st sock payload
    rw [hs]; exact ⟨hwf, h⟩
  · have hs : (handle st sock Event.callCancel payload).state = st := onCallCancel_state st sock payload
    rw [hs]; exact ⟨hwf, h⟩
  · exact subscribed_join st sock payload hwf h hopen
  · have hs : (handle st sock Event.callOffer payload).state = st := relay_state _ _ st sock payload
    rw [hs]; exact ⟨hwf, h⟩
  · have hs : (handle st sock Event.callAnswer payload).state = st := relay_state _ _ st sock payload
    rw [hs]; exact ⟨hwf, h⟩
  · have hs : (handle st sock Event.callIce payload).state = st := relay_state _ _ st sock payload
    rw [hs]; exact ⟨hwf, h⟩
  · exact subscribed_leave st sock payload hwf h hown

theorem subscribed_step (w w' : World) (a : Action)
    (hwf : JsMap.WF w.server.callRooms) (h : MembersSubscribed w.server)
    (hown : leavesOwn w.server a = true) (hstep : w.step a = some w') :
    JsMap.WF w'.server.callRooms ∧ MembersSubscribed w'.server := by
  cases a with
  | connect c =>
    simp only [World.step] at hstep
    split at hstep
    · cases hstep
    · cases hstep
      exact ⟨hwf, subscribed_of_sockets h rfl
        (fun _ _ hi => subscribers_socketOpen_mono _ _ _ hi)⟩
  | emit c ev payload =>
    simp only [World.step] at hstep
    split at hstep
    · rename_i hopen
      cases hstep
      exact subscribed_handle w.server c ev payload hwf h hopen hown
    · cases hstep
  | disconnect c =>
    simp only [World.step] at hstep
    split at hstep
    · cases hstep
      exact subscribed_disconnect w.server c hwf h
    · cases hstep

theorem subscribed_runIf (actions : List Action) :
    ∀ (w w' : World), JsMap.WF w.server.callRooms → MembersSubscribed w.server →
      w.runIf leavesOwn actions = some w' →
      JsMap.WF w'.server.callRooms ∧ MembersSubscribed w'.server := by
  induction actions with
  | nil =>
    intro w w' hwf h hrun
    simp only [World.runIf, Option.some.injEq] at hrun
    rw [← hrun]; exact ⟨hwf, h⟩
  | cons a rest ih =>
    intro w w' hwf h hrun
    simp only [World.runIf] at hrun
    split at hrun
    · rename_i hown
      cases hs : w.step a with
      | none => rw [hs] at hrun; cases hrun
      | some w1 =>
        rw [hs] at hrun
        obtain ⟨hwf1, h1⟩ := subscribed_step w w1 a hwf h hown hs
        exact ih w1 w' hwf1 h1 hrun
    · cases hrun

theorem runIf_of_keepsMembers (actions : List Action) :
    ∀ (w w' : World), w.runIf keepsMembers actions = some w' →
      w.runIf leavesOwn actions = some w' := by
  induction actions with
  | nil => intro w w' h; exact h
  | cons a rest ih =>
    intro w w' h
    simp only [World.runIf] at h ⊢
    split at h
    · rename_i hok
      simp only [keepsMembers, Bool.and_eq_true] at hok
      rw [if_pos hok.2]
      cases hs : w.step a with
      | none => rw [hs] at h; cases h
      | some w1 =>
        rw [hs] at h
        exact ih w1 w' h
    · cases h

/-- C13 (broadcasts and members), as the code has it.  Take any state
reached from the empty server by connections, disconnections and events of
connected sockets (`setup`, `join chat`, the nine call events, any payload)
in which no room joined is named by an array and no `call:leave` is sent by
a socket that holds an entry of the room under another user id than the one
removed.  In it every connection stored in the membership of a room has
joined the broadcast room of that name; and it receives every broadcast to
the room (`call:user-joined`, `call:user-left`) of a sender other than
itself whose own room, the one named by the sender's socket id, it has not
joined. -/
theorem members_receive_broadcasts (actions : List Action) (w : World)
    (hrun : World.init.runIf keepsMembers actions = some w) :
    (∀ e ∈ w.server.callRooms, ∀ x ∈ e.2, x.2 ∈ subscribers w.server.sockets e.1) ∧
    (∀ e ∈ w.server.callRooms, ∀ x ∈ e.2, ∀ (sender : SockId) (event : String)
        (payload : List (String × JsVal)), x.2 ≠ sender →
      x.2 ∉ subscribers w.server.sockets (JsVal.str sender) →
      { dest := x.2, event := event, payload := payload } ∈
        deliver w.server.sockets sender
          { target := Target.room e.1, event := event, payload := payload }) := by
  have hinv := (subscribed_runIf actions World.init w
    (by simp [World.init, JsMap.WF]) (fun e he => by cases he)
    (runIf_of_keepsMembers actions World.init w hrun)).2
  refine ⟨hinv, ?_⟩
  intro e he x hx sender event payload hne _
  rw [deliver_room]
  exact List.mem_map.mpr ⟨x.2, List.mem_filter.mpr ⟨hinv e he x hx, by simpa using hne⟩, rfl⟩

theorem members_receive_broadcasts_witness :
    World.init.runIf keepsMembers leaveActions = some leaveWorld ∧
    (∀ e ∈ leaveWorld.server.callRooms, ∀ x ∈ e.2,
      x.2 ∈ subscribers leaveWorld.server.sockets e.1) ∧
    { dest := "c2", event := "call:user-left", payload := [("userId", JsVal.str "A")] } ∈
      deliver leaveWorld.server.sockets "c1"
        { target := Target.room (JsVal.str "R1"), event := "call:user-left",
          payload := [("userId", JsVal.str "A")] } :=
  ⟨rfl, (members_receive_broadcasts leaveActions leaveWorld rfl).1,
   (members_receive_broadcasts leaveActions leaveWorld rfl).2
     (JsVal.str "R1", [(JsVal.str "B", "c2")]) (List.mem_cons_self _ _)
     (JsVal.str "B", "c2") (List.mem_cons_self _ _) "c1" "call:user-left"
     [("userId", JsVal.str "A")] (by decide) (by decide)⟩

/-- C13 as stated fails: the sockets that have joined the broadcast room `R1`
are not always the connections of the membership of `R1`.  After `c1` has
sent `join chat` for `R1`, `c1` is in the broadcast room and the registry has
no room `R1`.  After `A` joined on `c1`, `B` joined on `c2` and `c2` sent the
`call:leave` of `A`, the membership of `R1` is `B` on `c2`, but the broadcast
room holds `c1` and not `c2`. -/
theorem subscribers_differ_from_members :
    (World.init.run [Action.connect "c1",
        Action.emit "c1" Event.joinChat (JsVal.str "R1")]).map
        (fun w => (subscribers w.server.sockets (JsVal.str "R1"),
          (roomOrNew w.server.callRooms (JsVal.str "R1")).map Prod.snd))
      = some (["c1"], []) ∧
    (World.init.run strayLeaveActions).map
        (fun w => (subscribers w.server.sockets (JsVal.str "R1"),
          (roomOrNew w.server.callRooms (JsVal.str "R1")).map Prod.snd))
      = some (["c1"], ["c2"]) := by
  refine ⟨by decide, by decide⟩

/-! ## The middleware `validateInput` -/

theorem validateInput_next_or_caught (req : Request) :
    ((validateInput req).nextCalls = 1 ∧ (validateInput req).threw = false) ∨
    ((validateInput req).nextCalls = 0 ∧ (validateInput req).sent ≠ []) := by
  unfold validateInput
  simp only
  split
  · exact Or.inl ⟨rfl, rfl⟩
  · rename_i v _
    right
    unfold Validation.send
    cases hs : v.sent with
    | nil => simp
    | cons r rest => simp [hs]

/-- Whenever `validateInput` returns having sent the response `Invalid input
detected`, it has called `next()` as well. -/
theorem validateInput_detected_calls_next (req : Request)
    (hthrew : (validateInput req).threw = false)
    (hsent : ∃ r ∈ (validateInput req).sent, r.error = "Invalid input detected") :
    (validateInput req).nextCalls = 1 := by
  revert hthrew hsent
  unfold validateInput
  simp only
  split
  · intros; rfl
  · rename_i v _
    unfold Validation.send
    cases hs : v.sent with
    | nil =>
      simp
    | cons r rest => simp

/-- C14, the code against the claim: on a request whose query holds the string
`<script>alert(1)</script>`, `validateInput` sends the one 400 response and
then calls `next()` all the same, once. -/
theorem validateInput_calls_next_after_400 :
    validateInput scriptRequest =
      { sent := [{ status := 400, error := "Invalid input detected" }],
        nextCalls := 1, threw := false } := by
  decide

theorem validateInput_plainRequest :
    validateInput plainRequest = { sent := [], nextCalls := 1, threw := false } := by
  decide

end CallSignaling
